import Mathlib

/-!
Verification of the go-gnss/ntrip caster against its specification.

Go strings are modelled as lists of characters (`GoStr`); for the ASCII data
the protocol deals in, one character corresponds to one byte, so Go's `len`
is list length.  Go `float32`/`float64` values are idealised as rationals,
with `strconv.FormatFloat(_, 'f', 4, 32)` modelled as exact rounding to four
decimal places and `strconv.ParseFloat` as exact decimal parsing.  Go `int`
is modelled as `Int`, with `strconv.ParseInt`'s 64-bit overflow check kept.
Functions that can panic in Go (slicing past the end of a string) are
modelled in `Except`, the error being the panic.
-/

abbrev GoStr := List Char

def gs (s : String) : GoStr := s.toList

/-- Go `unicode.IsSpace` restricted to the ASCII range (the only characters
relevant to this protocol). -/
def goIsSpace (c : Char) : Bool :=
  c = ' ' || c = '\t' || c = '\n' || c = '\x0b' || c = '\x0c' || c = '\r'

/-- Go `strings.TrimSpace` (leading part). -/
def trimLeft (s : GoStr) : GoStr := s.dropWhile goIsSpace

/-- Go `strings.TrimSpace` (trailing part). -/
def trimRight (s : GoStr) : GoStr := (s.reverse.dropWhile goIsSpace).reverse

/-- Go `strings.TrimSpace`. -/
def trimSpace (s : GoStr) : GoStr := trimRight (trimLeft s)

def splitOnAux (sep : Char) : GoStr → GoStr → List GoStr
  | [], acc => [acc.reverse]
  | c :: rest, acc =>
    if c = sep then acc.reverse :: splitOnAux sep rest []
    else splitOnAux sep rest (c :: acc)

/-- Go `strings.Split` with a one-character separator. -/
def splitOnChar (sep : Char) (s : GoStr) : List GoStr := splitOnAux sep s []

/-- Go `strings.Join`. -/
def joinSep (sep : GoStr) : List GoStr → GoStr
  | [] => []
  | [x] => x
  | x :: y :: rest => x ++ sep ++ joinSep sep (y :: rest)

/-- Go `strings.Index` (first index of a substring, or none). -/
def subIndex (pat : GoStr) : GoStr → Option Nat
  | [] => if pat = [] then some 0 else none
  | c :: rest =>
    if pat.isPrefixOf (c :: rest) then some 0
    else (subIndex pat rest).map (· + 1)

/-- Go `strings.Contains`. -/
def containsStr (s pat : GoStr) : Bool := (subIndex pat s).isSome

/-- Go `strings.SplitN(s, sep, 2)` for a one-character separator, reported as
the pair around the first occurrence (none when the separator is absent, in
which case Go returns a one-element slice). -/
def splitN2 (sep : Char) (s : GoStr) : Option (GoStr × GoStr) :=
  (subIndex [sep] s).map (fun i => (s.take i, s.drop (i + 1)))

/-- Go `strings.ToUpper` restricted to ASCII. -/
def asciiUpper (s : GoStr) : GoStr :=
  s.map (fun c => if 'a' ≤ c ∧ c ≤ 'z' then Char.ofNat (c.toNat - 32) else c)

def digitChar (d : Nat) : Char := Char.ofNat (48 + d)

def digitVal (c : Char) : Option Nat :=
  if '0' ≤ c ∧ c ≤ '9' then some (c.toNat - 48) else none

def isDigitB (c : Char) : Bool := (digitVal c).isSome

/-- Little-endian base-10 digits, by structural recursion on a fuel bound so
the kernel can evaluate it (`fuel ≥ n` makes it total). -/
def natDigitsRev : Nat → Nat → List Nat
  | _, 0 => []
  | 0, _ + 1 => []
  | f + 1, n + 1 => ((n + 1) % 10) :: natDigitsRev f ((n + 1) / 10)

/-- Decimal rendering of a natural number (Go `strconv.FormatInt` on
non-negative values). -/
def natRepr (n : Nat) : GoStr :=
  if n = 0 then ['0'] else ((natDigitsRev n n).map digitChar).reverse

/-- Go `strconv.FormatInt(v, 10)`. -/
def intRepr (v : Int) : GoStr :=
  if v < 0 then '-' :: natRepr v.natAbs else natRepr v.natAbs

/-- Numeric value of a string of decimal digit characters (most significant
first); non-digits count as zero, callers establish digit-ness separately. -/
def digitsToNat (l : GoStr) : Nat :=
  Nat.ofDigits 10 ((l.map (fun c => (digitVal c).getD 0)).reverse)

def parseNatDigits (l : GoStr) : Option Nat :=
  if l = [] then none
  else if l.all isDigitB then some (digitsToNat l) else none

/-- Go `strconv.ParseInt(s, 10, 64)`; overflow is an error, reported as none. -/
def parseIntGo (s : GoStr) : Option Int :=
  match s with
  | '+' :: rest =>
    (parseNatDigits rest).bind fun n =>
      if (n : Int) ≤ 2 ^ 63 - 1 then some (n : Int) else none
  | '-' :: rest =>
    (parseNatDigits rest).bind fun n =>
      if (n : Int) ≤ 2 ^ 63 then some (-(n : Int)) else none
  | _ =>
    (parseNatDigits s).bind fun n =>
      if (n : Int) ≤ 2 ^ 63 - 1 then some (n : Int) else none

/-- Floor of a rational, written out so the kernel can evaluate it. -/
def qfloor (x : ℚ) : ℤ := Int.fdiv x.num (x.den : ℤ)

/-- Round to the nearest integer, ties to even. -/
def qround (x : ℚ) : ℤ :=
  let f : ℤ := qfloor x
  let r : ℚ := x - f
  if r < 1 / 2 then f
  else if 1 / 2 < r then f + 1
  else if (2 : ℤ) ∣ f then f else f + 1

def padLeftZeros (k : Nat) (l : GoStr) : GoStr :=
  List.replicate (k - l.length) '0' ++ l

/-- Go `strconv.FormatFloat(x, 'f', 4, 32)` in the rational idealisation:
sign, integer part, point, exactly four fraction digits; the scaled value
`|x| * 10000` is rounded to the nearest integer, ties to even, written out
on the numerator and denominator so the kernel can evaluate it. -/
def formatFloatFixed4 (x : ℚ) : GoStr :=
  let t : Nat := x.num.natAbs * 10000
  let f : Nat := t / x.den
  let r : Nat := t % x.den
  let m : Nat :=
    if 2 * r < x.den then f
    else if x.den < 2 * r then f + 1
    else if f % 2 = 0 then f else f + 1
  (if x.num < 0 then ['-'] else []) ++
    natRepr (m / 10000) ++ '.' :: padLeftZeros 4 (natRepr (m % 10000))

/-- The rational value `(ip + fp/10^|fp|) * 10^e` of a parsed decimal,
assembled with `mkRat` so the kernel can evaluate it. -/
def floatValQ (ip fp : GoStr) (e : Int) : ℚ :=
  let M : Int := ((digitsToNat ip * 10 ^ fp.length + digitsToNat fp : Nat) : Int)
  if 0 ≤ e then mkRat (M * 10 ^ e.toNat) (10 ^ fp.length)
  else mkRat M (10 ^ fp.length * 10 ^ (-e).toNat)

def expDigits (r : GoStr) : Option Int :=
  if r = [] then none
  else if r.all isDigitB then some (digitsToNat r : Int) else none

def parseExpSigned : GoStr → Option Int
  | '+' :: r => expDigits r
  | '-' :: r => (expDigits r).map (fun e => -e)
  | r => expDigits r

def parseExp : GoStr → Option Int
  | [] => some 0
  | 'e' :: r => parseExpSigned r
  | 'E' :: r => parseExpSigned r
  | _ => none

def parseFloatBody (s : GoStr) : Option ℚ :=
  match s.dropWhile isDigitB with
  | c :: r2 =>
    if c = '.' then
      if s.takeWhile isDigitB = [] ∧ r2.takeWhile isDigitB = [] then none
      else
        (parseExp (r2.dropWhile isDigitB)).map
          (floatValQ (s.takeWhile isDigitB) (r2.takeWhile isDigitB))
    else
      if s.takeWhile isDigitB = [] then none
      else (parseExp (c :: r2)).map (floatValQ (s.takeWhile isDigitB) [])
  | [] =>
    if s.takeWhile isDigitB = [] then none
    else (parseExp []).map (floatValQ (s.takeWhile isDigitB) [])

/-- Go `strconv.ParseFloat` on plain decimal forms (the idealisation does not
model inf/nan or hexadecimal floats, which the sourcetable never contains). -/
def parseFloatGo (s : GoStr) : Option ℚ :=
  match s with
  | '+' :: r => parseFloatBody r
  | '-' :: r => (parseFloatBody r).map (fun q => -q)
  | _ => parseFloatBody s

/-! ## Sourcetable data model (src/sourcetable.go) -/

structure CasterEntry where
  Host : GoStr
  Port : Int
  Identifier : GoStr
  Operator : GoStr
  NMEA : Bool
  Country : GoStr
  Latitude : ℚ
  Longitude : ℚ
  FallbackHostAddress : GoStr
  FallbackHostPort : Int
  Misc : GoStr
deriving DecidableEq

structure NetworkEntry where
  Identifier : GoStr
  Operator : GoStr
  Authentication : GoStr
  Fee : Bool
  NetworkInfoURL : GoStr
  StreamInfoURL : GoStr
  RegistrationAddress : GoStr
  Misc : GoStr
deriving DecidableEq

structure StreamEntry where
  Name : GoStr
  Identifier : GoStr
  Format : GoStr
  FormatDetails : GoStr
  Carrier : GoStr
  NavSystem : GoStr
  Network : GoStr
  CountryCode : GoStr
  Latitude : ℚ
  Longitude : ℚ
  NMEA : Bool
  Solution : Bool
  Generator : GoStr
  Compression : GoStr
  Authentication : GoStr
  Fee : Bool
  Bitrate : Int
  Misc : GoStr
deriving DecidableEq

structure Sourcetable where
  Casters : List CasterEntry
  Networks : List NetworkEntry
  Mounts : List StreamEntry
deriving DecidableEq

def boolDigit (b : Bool) : GoStr := if b then gs "1" else gs "0"

def feeLetter (b : Bool) : GoStr := if b then gs "Y" else gs "N"

/-- `CasterEntry.String`. -/
def casterString (c : CasterEntry) : GoStr :=
  joinSep (gs ";")
    [gs "CAS", c.Host, intRepr c.Port, c.Identifier, c.Operator, boolDigit c.NMEA,
     c.Country, formatFloatFixed4 c.Latitude, formatFloatFixed4 c.Longitude,
     c.FallbackHostAddress, intRepr c.FallbackHostPort, c.Misc]

/-- `NetworkEntry.String`. -/
def networkString (n : NetworkEntry) : GoStr :=
  joinSep (gs ";")
    [gs "NET", n.Identifier, n.Operator, n.Authentication, feeLetter n.Fee,
     n.NetworkInfoURL, n.StreamInfoURL, n.RegistrationAddress, n.Misc]

/-- `StreamEntry.String`. -/
def streamString (m : StreamEntry) : GoStr :=
  joinSep (gs ";")
    [gs "STR", m.Name, m.Identifier, m.Format, m.FormatDetails, m.Carrier,
     m.NavSystem, m.Network, m.CountryCode, formatFloatFixed4 m.Latitude,
     formatFloatFixed4 m.Longitude, boolDigit m.NMEA, boolDigit m.Solution,
     m.Generator, m.Compression, m.Authentication, feeLetter m.Fee,
     intRepr m.Bitrate, m.Misc]

/-- `Sourcetable.String`: entries joined by CRLF with the terminator line. -/
def sourcetableString (st : Sourcetable) : GoStr :=
  joinSep (gs "\r\n")
    (st.Casters.map casterString ++ st.Networks.map networkString ++
     st.Mounts.map streamString ++ [gs "ENDSOURCETABLE\r\n"])

/-! ## Sourcetable record parsing (the `parser` helpers) -/

def errParsing (f : GoStr) : GoStr := gs "parsing " ++ f

def errConvFloat (f : GoStr) : GoStr := gs "converting " ++ f ++ gs " to a float32"

def errConvInt (f : GoStr) : GoStr := gs "converting " ++ f ++ gs " to an int"

/-- `parser.parseString`. -/
def goParseStringAt (parts : List GoStr) (i : Nat) (f : GoStr) : GoStr × List GoStr :=
  match parts.get? i with
  | none => ([], [errParsing f])
  | some v => (v, [])

/-- `parser.parseFloat32` (ParseFloat as 64-bit then narrowed, idealised as
the exact rational). -/
def goParseFloatAt (parts : List GoStr) (i : Nat) (f : GoStr) : ℚ × List GoStr :=
  match parts.get? i with
  | none => (0, [errParsing f])
  | some v =>
    match parseFloatGo v with
    | none => (0, [errConvFloat f])
    | some q => (q, [])

/-- `parser.parseInt`. -/
def goParseIntAt (parts : List GoStr) (i : Nat) (f : GoStr) : Int × List GoStr :=
  match parts.get? i with
  | none => (0, [errParsing f])
  | some v =>
    match parseIntGo v with
    | none => (0, [errConvInt f])
    | some n => (n, [])

/-- `parser.parseBool`: any present value other than the designated false
token parses as true. -/
def goParseBoolAt (parts : List GoStr) (i : Nat) (falseValue f : GoStr) :
    Bool × List GoStr :=
  match parts.get? i with
  | none => (false, [errParsing f])
  | some v => (if v = falseValue then false else true, [])

/-- `ParseCasterEntry`. -/
def ParseCasterEntry (s : GoStr) : CasterEntry × List GoStr :=
  let parts := splitOnChar ';' s
  let host := goParseStringAt parts 1 (gs "host")
  let port := goParseIntAt parts 2 (gs "port")
  let ident := goParseStringAt parts 3 (gs "identifier")
  let oper := goParseStringAt parts 4 (gs "operator")
  let nmea := goParseBoolAt parts 5 (gs "0") (gs "nmea")
  let country := goParseStringAt parts 6 (gs "country")
  let lat := goParseFloatAt parts 7 (gs "latitude")
  let lng := goParseFloatAt parts 8 (gs "longitude")
  let fha := goParseStringAt parts 9 (gs "fallback host address")
  let fhp := goParseIntAt parts 10 (gs "fallback host port")
  let misc := goParseStringAt parts 11 (gs "misc")
  (⟨host.1, port.1, ident.1, oper.1, nmea.1, country.1, lat.1, lng.1,
    fha.1, fhp.1, misc.1⟩,
   host.2 ++ port.2 ++ ident.2 ++ oper.2 ++ nmea.2 ++ country.2 ++ lat.2 ++
     lng.2 ++ fha.2 ++ fhp.2 ++ misc.2)

/-- `ParseNetworkEntry`. -/
def ParseNetworkEntry (s : GoStr) : NetworkEntry × List GoStr :=
  let parts := splitOnChar ';' s
  let ident := goParseStringAt parts 1 (gs "identifier")
  let oper := goParseStringAt parts 2 (gs "operator")
  let auth := goParseStringAt parts 3 (gs "authentication")
  let fee := goParseBoolAt parts 4 (gs "N") (gs "fee")
  let niu := goParseStringAt parts 5 (gs "network info url")
  let siu := goParseStringAt parts 6 (gs "stream info url")
  let reg := goParseStringAt parts 7 (gs "registration address")
  let misc := goParseStringAt parts 8 (gs "misc")
  (⟨ident.1, oper.1, auth.1, fee.1, niu.1, siu.1, reg.1, misc.1⟩,
   ident.2 ++ oper.2 ++ auth.2 ++ fee.2 ++ niu.2 ++ siu.2 ++ reg.2 ++ misc.2)

/-- `ParseStreamEntry` (the "logitude" field name reproduces the source). -/
def ParseStreamEntry (s : GoStr) : StreamEntry × List GoStr :=
  let parts := splitOnChar ';' s
  let name := goParseStringAt parts 1 (gs "name")
  let ident := goParseStringAt parts 2 (gs "identifier")
  let format := goParseStringAt parts 3 (gs "format")
  let fdet := goParseStringAt parts 4 (gs "format details")
  let carrier := goParseStringAt parts 5 (gs "carrier")
  let navsys := goParseStringAt parts 6 (gs "nav system")
  let network := goParseStringAt parts 7 (gs "network")
  let cc := goParseStringAt parts 8 (gs "country code")
  let lat := goParseFloatAt parts 9 (gs "latitude")
  let lng := goParseFloatAt parts 10 (gs "logitude")
  let nmea := goParseBoolAt parts 11 (gs "0") (gs "nmea")
  let sol := goParseBoolAt parts 12 (gs "0") (gs "solution")
  let gen := goParseStringAt parts 13 (gs "generator")
  let comp := goParseStringAt parts 14 (gs "compression")
  let auth := goParseStringAt parts 15 (gs "authentication")
  let fee := goParseBoolAt parts 16 (gs "N") (gs "fee")
  let bitrate := goParseIntAt parts 17 (gs "bitrate")
  let misc := goParseStringAt parts 18 (gs "misc")
  (⟨name.1, ident.1, format.1, fdet.1, carrier.1, navsys.1, network.1, cc.1,
    lat.1, lng.1, nmea.1, sol.1, gen.1, comp.1, auth.1, fee.1, bitrate.1,
    misc.1⟩,
   name.2 ++ ident.2 ++ format.2 ++ fdet.2 ++ carrier.2 ++ navsys.2 ++
     network.2 ++ cc.2 ++ lat.2 ++ lng.2 ++ nmea.2 ++ sol.2 ++ gen.2 ++
     comp.2 ++ auth.2 ++ fee.2 ++ bitrate.2 ++ misc.2)

def wrapLineErrs (n : Nat) (es : List GoStr) : List GoStr :=
  es.map (fun e => gs "parsing line " ++ natRepr n ++ gs ": " ++ e)

def panicSliceMsg : GoStr := gs "panic: runtime error: slice bounds out of range"

/-- The per-line loop of `ParseSourcetable`.  A trimmed non-blank,
non-terminator line shorter than three characters makes the Go expression
`line[:3]` panic, modelled as the `Except.error` case. -/
def parseSourcetableLines :
    List GoStr → Nat → Sourcetable → List GoStr →
      Except GoStr (Sourcetable × List GoStr)
  | [], _, t, w => .ok (t, w)
  | raw :: rest, n, t, w =>
    let line := trimSpace raw
    if line = [] then parseSourcetableLines rest (n + 1) t w
    else if line = gs "ENDSOURCETABLE" then .ok (t, w)
    else if line.length < 3 then .error panicSliceMsg
    else if line.take 3 = gs "CAS" then
      let r := ParseCasterEntry line
      parseSourcetableLines rest (n + 1)
        { t with Casters := t.Casters ++ [r.1] } (w ++ wrapLineErrs n r.2)
    else if line.take 3 = gs "NET" then
      let r := ParseNetworkEntry line
      parseSourcetableLines rest (n + 1)
        { t with Networks := t.Networks ++ [r.1] } (w ++ wrapLineErrs n r.2)
    else if line.take 3 = gs "STR" then
      let r := ParseStreamEntry line
      parseSourcetableLines rest (n + 1)
        { t with Mounts := t.Mounts ++ [r.1] } (w ++ wrapLineErrs n r.2)
    else parseSourcetableLines rest (n + 1) t w

/-- `ParseSourcetable`. -/
def ParseSourcetable (s : GoStr) : Except GoStr (Sourcetable × List GoStr) :=
  parseSourcetableLines (splitOnChar '\n' s) 0 ⟨[], [], []⟩ []

/-! ## Sourcetable filtering (Sourcetable.Filter, parseQuery, matches) -/

structure Condition where
  field : GoStr
  operator : GoStr
  value : GoStr
deriving DecidableEq

/-- The operator scan order of `parseQuery`. -/
def opsList : List GoStr :=
  [gs "!=", gs ">=", gs "<=", gs "=", gs ">", gs "<", gs "~"]

def findOpAux : List GoStr → GoStr → Option (GoStr × Nat)
  | [], _ => none
  | op :: rest, part =>
    match subIndex op part with
    | some i => some (op, i)
    | none => findOpAux rest part

/-- The operator search inside `parseQuery`: first operator of `opsList`
that occurs anywhere in the part, with its index. -/
def findOp (part : GoStr) : Option (GoStr × Nat) := findOpAux opsList part

def strFieldNames : List GoStr :=
  [gs "Name", gs "Identifier", gs "Format", gs "FormatDetails", gs "Carrier",
   gs "NavSystem", gs "Network", gs "CountryCode", gs "Latitude",
   gs "Longitude", gs "NMEA", gs "Solution", gs "Generator", gs "Compression",
   gs "Authentication", gs "Fee", gs "Bitrate", gs "Misc"]

def casFieldNames : List GoStr :=
  [gs "Host", gs "Port", gs "Identifier", gs "Operator", gs "NMEA",
   gs "Country", gs "Latitude", gs "Longitude", gs "FallbackHostAddress",
   gs "FallbackHostPort", gs "Misc"]

def netFieldNames : List GoStr :=
  [gs "Identifier", gs "Operator", gs "Authentication", gs "Fee",
   gs "NetworkInfoURL", gs "StreamInfoURL", gs "RegistrationAddress", gs "Misc"]

/-- `getFieldNameByIndex` (out-of-range and unknown types give ""). -/
def getFieldNameByIndex (entryType : GoStr) (index : Nat) : GoStr :=
  if entryType = gs "STR" then strFieldNames.getD index []
  else if entryType = gs "CAS" then casFieldNames.getD index []
  else if entryType = gs "NET" then netFieldNames.getD index []
  else []

/-- The positional-field loop of `parseQuery`: non-empty positions with a
known canonical field become equality conditions. -/
def posConditions (entryType : GoStr) : List GoStr → Nat → List Condition
  | [], _ => []
  | v :: rest, j =>
    if v = [] then posConditions entryType rest (j + 1)
    else if getFieldNameByIndex entryType j = [] then
      posConditions entryType rest (j + 1)
    else ⟨getFieldNameByIndex entryType j, gs "=", v⟩ ::
      posConditions entryType rest (j + 1)

/-- The `for i, part := range parts` loop of `parseQuery`; the positional
form is only recognised on the first part (`i == 0`), an error stops the
loop and is returned with the conditions collected so far. -/
def parseQueryLoop : List GoStr → Bool → List Condition →
    List Condition × Option GoStr
  | [], _, acc => (acc, none)
  | part :: rest, isFirst, acc =>
    if isFirst ∧ containsStr part (gs ";") then
      match splitOnChar ';' part with
      | [] => parseQueryLoop rest false acc
      | f0 :: fs =>
        if f0 = [] then parseQueryLoop rest false acc
        else parseQueryLoop rest false (acc ++ posConditions f0 fs 0)
    else
      match findOp part with
      | none => (acc, some (gs "invalid condition format: " ++ part))
      | some (op, idx) =>
        parseQueryLoop rest false
          (acc ++ [⟨part.take idx, op, part.drop (idx + op.length)⟩])

/-- `parseQuery` (returns the conditions built so far plus an optional
error, exactly as the Go function returns `(q, err)`). -/
def parseQuery (s : GoStr) : List Condition × Option GoStr :=
  if s = [] ∨ ¬ (gs "?").isPrefixOf s then ([], none)
  else parseQueryLoop (splitOnChar '&' (s.drop 1)) true []

/-- Go `strconv.FormatBool`. -/
def goFormatBool (b : Bool) : GoStr := if b then gs "true" else gs "false"

/-- Go `strconv.FormatFloat(x, 'f', -1, 64)` in the rational idealisation:
the shortest fixed-point form that is exact, probing up to 60 fraction
digits (floats always terminate well before that). -/
def formatFloatMin (x : ℚ) : GoStr :=
  let k := (((List.range 61).find? fun k => (x * 10 ^ k).den = 1).getD 60)
  let m := (qround (|x| * 10 ^ k)).toNat
  (if x < 0 then ['-'] else []) ++
    (if k = 0 then natRepr m
     else natRepr (m / 10 ^ k) ++ '.' :: padLeftZeros k (natRepr (m % 10 ^ k)))

/-- An entry handed to `query.matches` (the `interface{}` argument). -/
inductive STEntry where
  | cas (c : CasterEntry)
  | net (n : NetworkEntry)
  | str (m : StreamEntry)

/-- The reflection in `matchesCondition`: look the struct field up by name
and render it as a string according to its kind; none for unknown fields. -/
def fieldAsString : STEntry → GoStr → Option GoStr
  | .cas c, f =>
    if f = gs "Host" then some c.Host
    else if f = gs "Port" then some (intRepr c.Port)
    else if f = gs "Identifier" then some c.Identifier
    else if f = gs "Operator" then some c.Operator
    else if f = gs "NMEA" then some (goFormatBool c.NMEA)
    else if f = gs "Country" then some c.Country
    else if f = gs "Latitude" then some (formatFloatMin c.Latitude)
    else if f = gs "Longitude" then some (formatFloatMin c.Longitude)
    else if f = gs "FallbackHostAddress" then some c.FallbackHostAddress
    else if f = gs "FallbackHostPort" then some (intRepr c.FallbackHostPort)
    else if f = gs "Misc" then some c.Misc
    else none
  | .net n, f =>
    if f = gs "Identifier" then some n.Identifier
    else if f = gs "Operator" then some n.Operator
    else if f = gs "Authentication" then some n.Authentication
    else if f = gs "Fee" then some (goFormatBool n.Fee)
    else if f = gs "NetworkInfoURL" then some n.NetworkInfoURL
    else if f = gs "StreamInfoURL" then some n.StreamInfoURL
    else if f = gs "RegistrationAddress" then some n.RegistrationAddress
    else if f = gs "Misc" then some n.Misc
    else none
  | .str m, f =>
    if f = gs "Name" then some m.Name
    else if f = gs "Identifier" then some m.Identifier
    else if f = gs "Format" then some m.Format
    else if f = gs "FormatDetails" then some m.FormatDetails
    else if f = gs "Carrier" then some m.Carrier
    else if f = gs "NavSystem" then some m.NavSystem
    else if f = gs "Network" then some m.Network
    else if f = gs "CountryCode" then some m.CountryCode
    else if f = gs "Latitude" then some (formatFloatMin m.Latitude)
    else if f = gs "Longitude" then some (formatFloatMin m.Longitude)
    else if f = gs "NMEA" then some (goFormatBool m.NMEA)
    else if f = gs "Solution" then some (goFormatBool m.Solution)
    else if f = gs "Generator" then some m.Generator
    else if f = gs "Compression" then some m.Compression
    else if f = gs "Authentication" then some m.Authentication
    else if f = gs "Fee" then some (goFormatBool m.Fee)
    else if f = gs "Bitrate" then some (intRepr m.Bitrate)
    else if f = gs "Misc" then some m.Misc
    else none

/-- Go byte-wise string "less than". -/
def goStrLt : GoStr → GoStr → Bool
  | [], [] => false
  | [], _ :: _ => true
  | _ :: _, [] => false
  | a :: as, b :: bs =>
    if a.toNat < b.toNat then true
    else if b.toNat < a.toNat then false
    else goStrLt as bs

/-- `matchesCondition`. -/
def matchesCondition (e : STEntry) (cond : Condition) : Bool :=
  match fieldAsString e cond.field with
  | none => false
  | some fieldStr =>
    if cond.operator = gs "=" then fieldStr = cond.value
    else if cond.operator = gs "!=" then fieldStr ≠ cond.value
    else if cond.operator = gs "~" then containsStr fieldStr cond.value
    else if cond.operator = gs ">" ∨ cond.operator = gs ">=" ∨
        cond.operator = gs "<" ∨ cond.operator = gs "<=" then
      match parseFloatGo fieldStr, parseFloatGo cond.value with
      | some a, some b =>
        if cond.operator = gs ">" then a > b
        else if cond.operator = gs ">=" then a ≥ b
        else if cond.operator = gs "<" then a < b
        else a ≤ b
      | _, _ =>
        if cond.operator = gs ">" then goStrLt cond.value fieldStr
        else if cond.operator = gs ">=" then ¬ goStrLt fieldStr cond.value
        else if cond.operator = gs "<" then goStrLt fieldStr cond.value
        else ¬ goStrLt cond.value fieldStr
    else false

/-- `query.matches`. -/
def queryMatches (conds : List Condition) (e : STEntry) : Bool :=
  conds.all (matchesCondition e)

/-- `Sourcetable.Filter`. -/
def filterTable (st : Sourcetable) (query : GoStr) : Sourcetable × Option GoStr :=
  if query = [] then (st, none)
  else
    match parseQuery query with
    | (_, some e) => (st, some e)
    | (conds, none) =>
      if conds = [] then (st, none)
      else
        (⟨st.Casters.filter (fun c => queryMatches conds (.cas c)),
          st.Networks.filter (fun n => queryMatches conds (.net n)),
          st.Mounts.filter (fun m => queryMatches conds (.str m))⟩, none)

/-! ## Source service (src/internal/inmemory/service.go) -/

inductive NtripError where
  | notAuthorized
  | notFound
  | conflict
  | other (msg : GoStr)
deriving DecidableEq

inductive AuthAction where
  | publish
  | subscribe
deriving DecidableEq

/-- The `Authoriser` interface: `Authorise(action, mount, username, password)`
returns `(authorised, err)`. -/
def AuthFun : Type := AuthAction → GoStr → GoStr → GoStr → Except GoStr Bool

/-- State of the in-memory `SourceService`: the configured sourcetable and
the mount registry (`mounts map[string][]io.Writer`, writers as ids). -/
structure SvcState where
  sourcetable : Sourcetable
  mounts : List (GoStr × List Nat)
deriving DecidableEq

def lookupMount (m : GoStr) (l : List (GoStr × List Nat)) : Option (List Nat) :=
  (l.find? (fun p => p.1 = m)).map (·.2)

/-- `SourceService.GetSourcetable`: returns the configured sourcetable
verbatim (the code carries `TODO: Only include online Mounts in output`). -/
def getSourcetableInMemory (s : SvcState) : Sourcetable := s.sourcetable

/-- `SourceService.Publisher` up to the point where it returns: authorise,
then reject with Conflict if the mount is already in the registry, else
register the mount with an empty subscriber list and hand out a writer. -/
def svcPublisher (auth : AuthFun) (s : SvcState)
    (mount username password : GoStr) : Except NtripError Unit × SvcState :=
  match auth .publish mount username password with
  | .error e => (.error (.other (gs "error in authorisation: " ++ e)), s)
  | .ok false => (.error .notAuthorized, s)
  | .ok true =>
    match lookupMount mount s.mounts with
    | some _ => (.error .conflict, s)
    | none => (.ok (), { s with mounts := s.mounts ++ [(mount, [])] })

/-! ## HTTP handler (src/handler.go) -/

/-- The `switch err` at the end of `handleRequestV2`: the status code written
for each service error (none when no error: the response was already 200). -/
def v2StatusForError : Option NtripError → Option Nat
  | none => none
  | some .notAuthorized => some 401
  | some .notFound => some 404
  | some .conflict => some 409
  | some _ => some 500

inductive HMethod where
  | GET
  | POST
  | OTHER
deriving DecidableEq

structure HRequest where
  method : HMethod
  path : GoStr
  ntripVersion : GoStr
deriving DecidableEq

inductive HResponse where
  | raw (bytes : GoStr)
  | getMountV1 (r : HRequest)
  | v2Request (r : HRequest)
  | status (code : Nat)
deriving DecidableEq

def NTRIPVersionHeaderValueV2 : GoStr := gs "Ntrip/2.0"

/-- The bytes `handleGetSourcetableV1` writes to the hijacked socket:
`fmt.Fprintf(w, "SOURCETABLE 200 OK\r\nConnection: close\r\nContent-Type:
text/plain\r\nContent-Length: %d\r\n\r\n%s", len(st.String()), st)`. -/
def v1SourcetableResponse (st : Sourcetable) : GoStr :=
  gs "SOURCETABLE 200 OK\r\nConnection: close\r\nContent-Type: text/plain\r\nContent-Length: " ++
    natRepr (sourcetableString st).length ++ gs "\r\n\r\n" ++ sourcetableString st

/-- `handler.handleRequest` composed with `handleRequestV1`'s dispatch: the
version header decides v1 vs v2; v1 serves only GET, answers `/` with the
sourcetable bytes on the hijacked socket and other paths via
`handleGetMountV1`. -/
def handleRequestModel (st : Sourcetable) (r : HRequest) : HResponse :=
  if asciiUpper r.ntripVersion = asciiUpper NTRIPVersionHeaderValueV2 then
    .v2Request r
  else if r.method ≠ .GET then .status 501
  else if r.path = gs "/" then .raw (v1SourcetableResponse st)
  else .getMountV1 r

/-! ## NTRIP v1 SOURCE server (src/v1source, Server.handleConnection) -/

def b64Val (c : Char) : Option Nat :=
  if 'A' ≤ c ∧ c ≤ 'Z' then some (c.toNat - 65)
  else if 'a' ≤ c ∧ c ≤ 'z' then some (c.toNat - 71)
  else if '0' ≤ c ∧ c ≤ '9' then some (c.toNat + 4)
  else if c = '+' then some 62
  else if c = '/' then some 63
  else none

/-- One 4-character base64 quantum at a time; padding `=` only at the very
end (one or two), any other length or character is a decode error. -/
def b64Quanta : GoStr → Option GoStr
  | [] => some []
  | a :: b :: c :: d :: rest =>
    match b64Val a, b64Val b with
    | some va, some vb =>
      if c = '=' then
        if d = '=' ∧ rest = [] then
          some [Char.ofNat ((va * 4 + vb / 16) % 256)]
        else none
      else
        match b64Val c with
        | some vc =>
          if d = '=' then
            if rest = [] then
              some [Char.ofNat ((va * 4 + vb / 16) % 256),
                    Char.ofNat ((vb % 16 * 16 + vc / 4) % 256)]
            else none
          else
            match b64Val d with
            | some vd =>
              (b64Quanta rest).map fun bs =>
                Char.ofNat ((va * 4 + vb / 16) % 256) ::
                  Char.ofNat ((vb % 16 * 16 + vc / 4) % 256) ::
                  Char.ofNat ((vc % 4 * 64 + vd) % 256) :: bs
            | none => none
        | none => none
    | _, _ => none
  | _ => none

/-- Go `base64.StdEncoding.DecodeString` (newline characters are ignored by
the decoder; decoded bytes are read back as characters). -/
def base64DecodeGo (s : GoStr) : Option GoStr :=
  b64Quanta (s.filter fun c => ¬ (c = '\r' ∨ c = '\n'))

/-- `extractUsername`: Basic scheme, base64 payload, text before the first
colon; empty string whenever any step fails. -/
def extractUsername (auth : GoStr) : GoStr :=
  if ¬ (gs "Basic ").isPrefixOf auth then []
  else
    match base64DecodeGo (auth.drop 6) with
    | none => []
    | some decoded =>
      match splitN2 ':' decoded with
      | none => []
      | some (u, _) => u

def lookupHeader (k : GoStr) (hs : List (GoStr × GoStr)) : Option GoStr :=
  (hs.find? (fun p => p.1 = k)).map (·.2)

/-- The username `handleConnection` passes to the service: from the
`Authorization` header when present, else empty. -/
def usernameFromHeaders (hs : List (GoStr × GoStr)) : GoStr :=
  match lookupHeader (gs "Authorization") hs with
  | none => []
  | some a => extractUsername a

/-- `Server.handleConnection` as a function of the first request line, the
parsed headers and the service's `Publisher` outcome: the bytes written back
and whether the publish was admitted (socket bytes then copied in). -/
def sourceHandleConn (firstLine : GoStr) (hs : List (GoStr × GoStr))
    (pub : GoStr → GoStr → GoStr → Except NtripError Unit) : GoStr × Bool :=
  let parts := splitOnChar ' ' (trimSpace firstLine)
  if parts.length < 3 ∨ parts.getD 0 [] ≠ gs "SOURCE" then
    (gs "ERROR - Bad Request\r\n", false)
  else
    match pub (parts.getD 2 []) (usernameFromHeaders hs) (parts.getD 1 []) with
    | .ok _ => (gs "OK\r\n", true)
    | .error .notAuthorized => (gs "ERROR - Not Authorized\r\n", false)
    | .error .notFound => (gs "ERROR - Mount Point Does Not Exist\r\n", false)
    | .error .conflict => (gs "ERROR - Mount Point Already In Use\r\n", false)
    | .error (.other _) => (gs "ERROR - Internal Server Error\r\n", false)

/-! ## Spec-side statements of expected behaviour -/

/-- The response table of spec section 4.E for the v1 SOURCE dialect, as a
function of the service outcome. -/
def sourceResponseFor (r : Except NtripError Unit) : GoStr × Bool :=
  match r with
  | .ok _ => (gs "OK\r\n", true)
  | .error .notAuthorized => (gs "ERROR - Not Authorized\r\n", false)
  | .error .notFound => (gs "ERROR - Mount Point Does Not Exist\r\n", false)
  | .error .conflict => (gs "ERROR - Mount Point Already In Use\r\n", false)
  | .error (.other _) => (gs "ERROR - Internal Server Error\r\n", false)

/-- Spec reading of the positional filter form: each non-empty position
expands to an equality condition on the canonical field at that index. -/
def expectedPositional (ty : GoStr) (vs : List GoStr) : List Condition :=
  vs.enum.filterMap fun jv =>
    if jv.2 = [] then none
    else some ⟨getFieldNameByIndex ty jv.1, gs "=", jv.2⟩

/-- The serialized text of an explicit `Field OP Value` condition. -/
def explicitPart (c : Condition) : GoStr := c.field ++ c.operator ++ c.value

/-- The characters that can begin or continue one of the filter operators. -/
def opChars : GoStr := ['!', '>', '<', '=', '~']

/-- Well-formedness of an explicit condition for query round-tripping: a
recognised operator, and field/value free of operator characters and of the
conjunction separator. -/
def wfExplicit (c : Condition) : Bool :=
  decide (c.operator ∈ opsList) &&
    c.field.all (fun ch => ¬ (ch ∈ opChars ∨ ch = '&' ∨ ch = ';')) &&
    c.value.all (fun ch => ¬ (ch ∈ opChars ∨ ch = '&' ∨ ch = ';'))

/-! ## Round-trip hypotheses for claim C1 -/

/-- A string field that survives serialisation: no separator, no newline,
no terminator sentinel. -/
def fieldOK (f : GoStr) : Bool :=
  decide (';' ∉ f) && decide ('\n' ∉ f) && !containsStr f (gs "ENDSOURCETABLE")

/-- The last field of a record additionally must not end in whitespace,
because `ParseSourcetable` trims each line. -/
def lastFieldOK (f : GoStr) : Bool := decide (trimRight f = f)

/-- Go `int` values round-trip through `FormatInt`/`ParseInt(_, 10, 64)`. -/
def intOK (v : Int) : Bool := decide (-(2 ^ 63) ≤ v ∧ v < 2 ^ 63)

/-- A latitude/longitude that the four-decimal rendering preserves. -/
def floatOK (x : ℚ) : Bool := decide (x.den ∣ 10000)

def casterOK (c : CasterEntry) : Bool :=
  fieldOK c.Host && fieldOK c.Identifier && fieldOK c.Operator &&
    fieldOK c.Country && fieldOK c.FallbackHostAddress && fieldOK c.Misc &&
    lastFieldOK c.Misc && intOK c.Port && intOK c.FallbackHostPort &&
    floatOK c.Latitude && floatOK c.Longitude

def networkOK (n : NetworkEntry) : Bool :=
  fieldOK n.Identifier && fieldOK n.Operator && fieldOK n.Authentication &&
    fieldOK n.NetworkInfoURL && fieldOK n.StreamInfoURL &&
    fieldOK n.RegistrationAddress && fieldOK n.Misc && lastFieldOK n.Misc

def streamOK (m : StreamEntry) : Bool :=
  fieldOK m.Name && fieldOK m.Identifier && fieldOK m.Format &&
    fieldOK m.FormatDetails && fieldOK m.Carrier && fieldOK m.NavSystem &&
    fieldOK m.Network && fieldOK m.CountryCode && fieldOK m.Generator &&
    fieldOK m.Compression && fieldOK m.Authentication && fieldOK m.Misc &&
    lastFieldOK m.Misc && intOK m.Bitrate && floatOK m.Latitude &&
    floatOK m.Longitude

def sourcetableOK (st : Sourcetable) : Bool :=
  st.Casters.all casterOK && st.Networks.all networkOK &&
    st.Mounts.all streamOK

/-- The parsed table of a `ParseSourcetable` run, when it did not panic. -/
def parsedTableOf (r : Except GoStr (Sourcetable × List GoStr)) :
    Option Sourcetable :=
  match r with
  | .ok (t, _) => some t
  | .error _ => none

/-- A stream entry whose `Misc` ends in a space and whose latitude has a
fifth decimal digit: both are lost by serialise-then-parse. -/
def cexStream : StreamEntry :=
  { Name := gs "AAA", Identifier := [], Format := [], FormatDetails := [],
    Carrier := [], NavSystem := [], Network := [], CountryCode := [],
    Latitude := mkRat 3 25000, Longitude := mkRat 0 1, NMEA := false, Solution := false,
    Generator := [], Compression := [], Authentication := [], Fee := false,
    Bitrate := 0, Misc := gs "a " }

def cexTable : Sourcetable := ⟨[], [], [cexStream]⟩

/-! ## Concrete states used as evidence -/

def offlineStream : StreamEntry :=
  { Name := gs "OFFLINE1", Identifier := [], Format := [], FormatDetails := [],
    Carrier := [], NavSystem := [], Network := [], CountryCode := [],
    Latitude := mkRat 0 1, Longitude := mkRat 0 1, NMEA := false, Solution := false,
    Generator := [], Compression := [], Authentication := [], Fee := false,
    Bitrate := 0, Misc := [] }

/-- A service whose configured sourcetable advertises `OFFLINE1` while no
publisher is attached to any mount. -/
def offlineSvc : SvcState := ⟨⟨[], [], [offlineStream]⟩, []⟩

/-- The field strings of a serialised caster record, in order. -/
def casterFields (c : CasterEntry) : List GoStr :=
  [gs "CAS", c.Host, intRepr c.Port, c.Identifier, c.Operator, boolDigit c.NMEA,
   c.Country, formatFloatFixed4 c.Latitude, formatFloatFixed4 c.Longitude,
   c.FallbackHostAddress, intRepr c.FallbackHostPort, c.Misc]

/-- The field strings of a serialised network record, in order. -/
def networkFields (n : NetworkEntry) : List GoStr :=
  [gs "NET", n.Identifier, n.Operator, n.Authentication, feeLetter n.Fee,
   n.NetworkInfoURL, n.StreamInfoURL, n.RegistrationAddress, n.Misc]

/-- The field strings of a serialised stream record, in order. -/
def streamFields (m : StreamEntry) : List GoStr :=
  [gs "STR", m.Name, m.Identifier, m.Format, m.FormatDetails, m.Carrier,
   m.NavSystem, m.Network, m.CountryCode, formatFloatFixed4 m.Latitude,
   formatFloatFixed4 m.Longitude, boolDigit m.NMEA, boolDigit m.Solution,
   m.Generator, m.Compression, m.Authentication, feeLetter m.Fee,
   intRepr m.Bitrate, m.Misc]

/-- Exactly the hypotheses of the round-trip claim as stated: every
string-valued field free of separator, newline and terminator sentinel
(no condition on whitespace or float precision). -/
def streamStringFieldsOK (m : StreamEntry) : Bool :=
  fieldOK m.Name && fieldOK m.Identifier && fieldOK m.Format &&
    fieldOK m.FormatDetails && fieldOK m.Carrier && fieldOK m.NavSystem &&
    fieldOK m.Network && fieldOK m.CountryCode && fieldOK m.Generator &&
    fieldOK m.Compression && fieldOK m.Authentication && fieldOK m.Misc

def casterStringFieldsOK (c : CasterEntry) : Bool :=
  fieldOK c.Host && fieldOK c.Identifier && fieldOK c.Operator &&
    fieldOK c.Country && fieldOK c.FallbackHostAddress && fieldOK c.Misc

def networkStringFieldsOK (n : NetworkEntry) : Bool :=
  fieldOK n.Identifier && fieldOK n.Operator && fieldOK n.Authentication &&
    fieldOK n.NetworkInfoURL && fieldOK n.StreamInfoURL &&
    fieldOK n.RegistrationAddress && fieldOK n.Misc

def tableStringFieldsOK (st : Sourcetable) : Bool :=
  st.Casters.all casterStringFieldsOK && st.Networks.all networkStringFieldsOK &&
    st.Mounts.all streamStringFieldsOK

/-! ## Lemmas: splitting, joining and trimming -/

theorem splitOnAux_no_sep (sep : Char) :
    ∀ (l acc : GoStr), sep ∉ l → splitOnAux sep l acc = [acc.reverse ++ l] := by
  intro l
  induction l with
  | nil => intro acc _; simp [splitOnAux]
  | cons c t ih =>
    intro acc h
    have hc : ¬ c = sep := fun hh => h (hh ▸ List.mem_cons_self c t)
    have ht : sep ∉ t := fun hh => h (List.mem_cons_of_mem c hh)
    simp [splitOnAux, hc, ih (c :: acc) ht]

theorem splitOnAux_sep (sep : Char) :
    ∀ (l rest acc : GoStr), sep ∉ l →
      splitOnAux sep (l ++ sep :: rest) acc =
        (acc.reverse ++ l) :: splitOnAux sep rest [] := by
  intro l
  induction l with
  | nil => intro rest acc _; simp [splitOnAux]
  | cons c t ih =>
    intro rest acc h
    have hc : ¬ c = sep := fun hh => h (hh ▸ List.mem_cons_self c t)
    have ht : sep ∉ t := fun hh => h (List.mem_cons_of_mem c hh)
    simp [splitOnAux, hc, ih rest (c :: acc) ht]

theorem splitOnChar_no_sep (sep : Char) (l : GoStr) (h : sep ∉ l) :
    splitOnChar sep l = [l] := by
  simp [splitOnChar, splitOnAux_no_sep sep l [] h]

theorem splitOnChar_sep (sep : Char) (l rest : GoStr) (h : sep ∉ l) :
    splitOnChar sep (l ++ sep :: rest) = l :: splitOnChar sep rest := by
  simp [splitOnChar, splitOnAux_sep sep l rest [] h]

theorem joinSep_cons_ne_nil (sep x : GoStr) (l : List GoStr) (h : l ≠ []) :
    joinSep sep (x :: l) = x ++ sep ++ joinSep sep l := by
  cases l with
  | nil => exact absurd rfl h
  | cons y t => simp [joinSep]

theorem splitOnChar_joinSep (sep : Char) :
    ∀ (parts : List GoStr), parts ≠ [] → (∀ p ∈ parts, sep ∉ p) →
      splitOnChar sep (joinSep [sep] parts) = parts := by
  intro parts
  induction parts with
  | nil => intro h _; exact absurd rfl h
  | cons p t ih =>
    intro _ hmem
    cases t with
    | nil => simpa [joinSep] using splitOnChar_no_sep sep p (hmem p (by simp))
    | cons q u =>
      rw [joinSep_cons_ne_nil [sep] p (q :: u) (by simp)]
      have hp : sep ∉ p := hmem p (by simp)
      have : p ++ [sep] ++ joinSep [sep] (q :: u) =
          p ++ sep :: joinSep [sep] (q :: u) := by simp
      rw [this, splitOnChar_sep sep p _ hp,
        ih (by simp) (fun r hr => hmem r (List.mem_cons_of_mem p hr))]

theorem splitOnChar_joinSep_crlf :
    ∀ (lines : List GoStr), (∀ l ∈ lines, '\n' ∉ l) →
      splitOnChar '\n' (joinSep (gs "\r\n") (lines ++ [gs "ENDSOURCETABLE\r\n"])) =
        lines.map (· ++ ['\r']) ++ [gs "ENDSOURCETABLE\r", []] := by
  intro lines
  induction lines with
  | nil => intro _; decide
  | cons l t ih =>
    intro hmem
    rw [List.cons_append,
      joinSep_cons_ne_nil (gs "\r\n") l (t ++ [gs "ENDSOURCETABLE\r\n"]) (by simp)]
    have hl : '\n' ∉ l ++ ['\r'] := by
      intro h
      rcases List.mem_append.1 h with h | h
      · exact hmem l (by simp) h
      · simp at h
    have hshape : l ++ gs "\r\n" ++ joinSep (gs "\r\n") (t ++ [gs "ENDSOURCETABLE\r\n"]) =
        (l ++ ['\r']) ++ '\n' :: joinSep (gs "\r\n") (t ++ [gs "ENDSOURCETABLE\r\n"]) := by
      simp [gs]
    rw [hshape, splitOnChar_sep '\n' _ _ hl,
      ih (fun r hr => hmem r (List.mem_cons_of_mem l hr))]
    simp

theorem trimLeft_cons (c : Char) (t : GoStr) (h : goIsSpace c = false) :
    trimLeft (c :: t) = c :: t := by
  simp [trimLeft, List.dropWhile_cons, h]

theorem trimRight_append_cr (l : GoStr) : trimRight (l ++ ['\r']) = trimRight l := by
  simp [trimRight, List.dropWhile_cons, goIsSpace]

theorem dropWhile_cons_self (p : Char → Bool) (d : Char) (u : GoStr)
    (h : List.dropWhile p (d :: u) = d :: u) : p d = false := by
  have := (List.dropWhile_eq_self_iff).1 h (by simp)
  simpa using this

theorem trimRight_cons_of_self (c : Char) (z : GoStr) (hc : goIsSpace c = false)
    (hz : trimRight z = z) : trimRight (c :: z) = c :: z := by
  have hz' : z.reverse.dropWhile goIsSpace = z.reverse := by
    have := congrArg List.reverse hz
    simpa [trimRight] using this
  have hrev : (c :: z).reverse = z.reverse ++ [c] := by simp
  rw [trimRight, hrev]
  cases htr : z.reverse with
  | nil =>
    simp [List.dropWhile_cons, hc]
    have : z = [] := by simpa using congrArg List.reverse htr
    simp [this]
  | cons a s =>
    rw [htr] at hz'
    have ha : goIsSpace a = false := dropWhile_cons_self goIsSpace a s hz'
    have hdw : List.dropWhile goIsSpace (a :: s ++ [c]) = a :: s ++ [c] := by
      simp [List.dropWhile_cons, ha]
    rw [hdw]
    have : a :: s ++ [c] = (c :: z).reverse := by rw [hrev, htr]
    rw [this, List.reverse_reverse]

theorem trimRight_append_of (a b : GoStr) (hb : b ≠ []) (h : trimRight b = b) :
    trimRight (a ++ b) = a ++ b := by
  cases b with
  | nil => exact absurd rfl hb
  | cons c t =>
    have hcrev : (c :: t).reverse = t.reverse ++ [c] := by simp
    have hdrop : List.dropWhile goIsSpace (t.reverse ++ [c]) = t.reverse ++ [c] := by
      have := congrArg List.reverse h
      simpa [trimRight, hcrev] using this
    have habrev : (a ++ c :: t).reverse = (t.reverse ++ [c]) ++ a.reverse := by simp
    rw [trimRight, habrev]
    cases htr : t.reverse ++ [c] with
    | nil => simp at htr
    | cons d u =>
      rw [htr] at hdrop
      have hd : goIsSpace d = false := dropWhile_cons_self goIsSpace d u hdrop
      have hdw : List.dropWhile goIsSpace ((d :: u) ++ a.reverse) = (d :: u) ++ a.reverse := by
        simp [List.dropWhile_cons, hd]
      rw [hdw]
      have : (d :: u) ++ a.reverse = ((a ++ c :: t).reverse) := by rw [habrev, htr]
      rw [this, List.reverse_reverse]

/-! ## Lemmas: decimal integers -/

theorem natDigitsRev_eq (fuel : Nat) :
    ∀ n, n ≤ fuel → natDigitsRev fuel n = Nat.digits 10 n := by
  induction fuel with
  | zero =>
    intro n hn
    have : n = 0 := by omega
    subst this
    simp [natDigitsRev]
  | succ f ih =>
    intro n hn
    cases n with
    | zero => simp [natDigitsRev]
    | succ m =>
      have hdiv : (m + 1) / 10 ≤ f := by
        have := Nat.div_lt_self (Nat.succ_pos m) (by norm_num : 1 < 10)
        omega
      rw [natDigitsRev, ih ((m + 1) / 10) hdiv,
        Nat.digits_def' (by norm_num : 1 < 10) (Nat.succ_pos m)]

theorem natRepr_eq_digits (n : Nat) :
    natRepr n = if n = 0 then ['0'] else ((Nat.digits 10 n).map digitChar).reverse := by
  unfold natRepr
  by_cases h : n = 0
  · simp [h]
  · rw [if_neg h, if_neg h, natDigitsRev_eq n n (le_refl n)]

theorem digitVal_digitChar : ∀ d, d < 10 → (digitVal (digitChar d)).getD 0 = d := by decide

theorem isDigitB_digitChar : ∀ d, d < 10 → isDigitB (digitChar d) = true := by decide

theorem natRepr_ne_nil (n : Nat) : natRepr n ≠ [] := by
  rw [natRepr_eq_digits]
  split
  · simp
  · next h =>
    simp [Nat.digits_ne_nil_iff_ne_zero.2 h]

theorem natRepr_mem_digit (n : Nat) : ∀ c ∈ natRepr n, ∃ d, d < 10 ∧ c = digitChar d := by
  intro c hc
  rw [natRepr_eq_digits] at hc
  split at hc
  · simp at hc
    exact ⟨0, by norm_num, hc⟩
  · next h =>
    simp at hc
    obtain ⟨d, hd, hcd⟩ := hc
    exact ⟨d, Nat.digits_lt_base (by norm_num) hd, hcd.symm⟩

theorem natRepr_all_isDigitB (n : Nat) : (natRepr n).all isDigitB = true := by
  rw [List.all_eq_true]
  intro c hc
  obtain ⟨d, hd, rfl⟩ := natRepr_mem_digit n c hc
  exact isDigitB_digitChar d hd

theorem digitsToNat_natRepr (n : Nat) : digitsToNat (natRepr n) = n := by
  by_cases h : n = 0
  · subst h; decide
  · rw [natRepr_eq_digits]
    unfold digitsToNat
    rw [if_neg h]
    rw [List.map_reverse, List.reverse_reverse, List.map_map]
    have hmap : (Nat.digits 10 n).map ((fun c => (digitVal c).getD 0) ∘ digitChar) =
        Nat.digits 10 n := by
      have := List.map_congr_left (l := Nat.digits 10 n)
        (f := (fun c => (digitVal c).getD 0) ∘ digitChar) (g := id) ?_
      · simpa using this
      · intro d hd
        have hlt : d < 10 := Nat.digits_lt_base (by norm_num) hd
        simpa using digitVal_digitChar d hlt
    rw [hmap, Nat.ofDigits_digits]

theorem parseNatDigits_natRepr (n : Nat) : parseNatDigits (natRepr n) = some n := by
  unfold parseNatDigits
  rw [if_neg (natRepr_ne_nil n), if_pos (natRepr_all_isDigitB n), digitsToNat_natRepr]

theorem digitChar_not_sign : ∀ d, d < 10 →
    digitChar d ≠ '+' ∧ digitChar d ≠ '-' ∧ digitChar d ≠ '.' := by decide

theorem natRepr_head_digit (n : Nat) :
    ∃ c t, natRepr n = c :: t ∧ c ≠ '+' ∧ c ≠ '-' ∧ c ≠ '.' := by
  cases hrep : natRepr n with
  | nil => exact absurd hrep (natRepr_ne_nil n)
  | cons c t =>
    obtain ⟨d, hd, rfl⟩ := natRepr_mem_digit n c (hrep ▸ List.mem_cons_self c t)
    obtain ⟨u1, u2, u3⟩ := digitChar_not_sign d hd
    exact ⟨digitChar d, t, rfl, u1, u2, u3⟩

theorem parseIntGo_cons (c : Char) (t : GoStr) (h1 : c ≠ '+') (h2 : c ≠ '-') :
    parseIntGo (c :: t) =
      (parseNatDigits (c :: t)).bind fun n =>
        if (n : Int) ≤ 2 ^ 63 - 1 then some (n : Int) else none := by
  unfold parseIntGo
  split
  · next heq => rw [List.cons.injEq] at heq; exact absurd heq.1 h1
  · next heq => rw [List.cons.injEq] at heq; exact absurd heq.1 h2
  · rfl

theorem parseIntGo_neg (rest : GoStr) :
    parseIntGo ('-' :: rest) =
      (parseNatDigits rest).bind fun n =>
        if (n : Int) ≤ 2 ^ 63 then some (-(n : Int)) else none := rfl

theorem parseIntGo_intRepr (v : Int) (h1 : -(2 ^ 63) ≤ v) (h2 : v < 2 ^ 63) :
    parseIntGo (intRepr v) = some v := by
  unfold intRepr
  by_cases hv : v < 0
  · rw [if_pos hv, parseIntGo_neg, parseNatDigits_natRepr]
    have hle : ((v.natAbs : Int)) ≤ 2 ^ 63 := by omega
    simp only [Option.some_bind, if_pos hle]
    congr 1
    omega
  · rw [if_neg hv]
    obtain ⟨c, t, hct, hc1, hc2, _⟩ := natRepr_head_digit v.natAbs
    rw [hct, parseIntGo_cons c t hc1 hc2, ← hct, parseNatDigits_natRepr]
    have hle : ((v.natAbs : Int)) ≤ 2 ^ 63 - 1 := by omega
    simp only [Option.some_bind, if_pos hle]
    congr 1
    omega

/-! ## Lemmas: fixed-point float rendering -/

theorem takeWhile_all_self (p : Char → Bool) :
    ∀ l : GoStr, (∀ a ∈ l, p a = true) → List.takeWhile p l = l := by
  intro l
  induction l with
  | nil => intro _; rfl
  | cons c t ih =>
    intro h
    rw [List.takeWhile_cons, h c (by simp)]
    simp [ih (fun a ha => h a (List.mem_cons_of_mem c ha))]

theorem dropWhile_all_nil (p : Char → Bool) :
    ∀ l : GoStr, (∀ a ∈ l, p a = true) → List.dropWhile p l = [] := by
  intro l
  induction l with
  | nil => intro _; rfl
  | cons c t ih =>
    intro h
    rw [List.dropWhile_cons, h c (by simp)]
    simp [ih (fun a ha => h a (List.mem_cons_of_mem c ha))]

theorem takeWhile_all_append (p : Char → Bool) (l : GoStr) (c : Char) (r : GoStr)
    (hl : ∀ a ∈ l, p a = true) (hc : p c = false) :
    List.takeWhile p (l ++ c :: r) = l := by
  induction l with
  | nil => simp [List.takeWhile_cons, hc]
  | cons d t ih =>
    rw [List.cons_append, List.takeWhile_cons, hl d (by simp)]
    simp [ih (fun a ha => hl a (List.mem_cons_of_mem d ha))]

theorem dropWhile_all_append (p : Char → Bool) (l : GoStr) (c : Char) (r : GoStr)
    (hl : ∀ a ∈ l, p a = true) (hc : p c = false) :
    List.dropWhile p (l ++ c :: r) = c :: r := by
  induction l with
  | nil => simp [List.dropWhile_cons, hc]
  | cons d t ih =>
    rw [List.cons_append, List.dropWhile_cons, hl d (by simp)]
    simp [ih (fun a ha => hl a (List.mem_cons_of_mem d ha))]

theorem ofDigits_replicate_zero : ∀ k, Nat.ofDigits 10 (List.replicate k 0) = 0 := by
  intro k
  induction k with
  | zero => rfl
  | succ k ih => simp [List.replicate_succ, Nat.ofDigits_cons, ih]

theorem digitsToNat_padLeft (k : Nat) (l : GoStr) :
    digitsToNat (padLeftZeros k l) = digitsToNat l := by
  unfold digitsToNat padLeftZeros
  rw [List.map_append, List.reverse_append, Nat.ofDigits_append]
  have hrep : (List.replicate (k - l.length) '0').map (fun c => (digitVal c).getD 0) =
      List.replicate (k - l.length) 0 := by
    rw [List.map_replicate]
    rfl
  rw [hrep, List.reverse_replicate, ofDigits_replicate_zero]
  simp

theorem padLeftZeros_all (k : Nat) (l : GoStr) (h : l.all isDigitB = true) :
    ∀ a ∈ padLeftZeros k l, isDigitB a = true := by
  intro a ha
  rcases List.mem_append.1 ha with ha | ha
  · have : a = '0' := by simpa using (List.eq_of_mem_replicate ha)
    subst this; decide
  · exact List.all_eq_true.1 h a ha

theorem natRepr_length_le (n k : Nat) (hk : 1 ≤ k) (h : n < 10 ^ k) :
    (natRepr n).length ≤ k := by
  rw [natRepr_eq_digits]
  split
  · simpa
  · next h0 =>
    rw [List.length_reverse, List.length_map, Nat.digits_len 10 n (by norm_num) h0]
    have := (Nat.lt_pow_iff_log_lt (by norm_num : 1 < 10) h0).1 h
    omega

theorem padLeftZeros_length (k : Nat) (l : GoStr) (h : l.length ≤ k) :
    (padLeftZeros k l).length = k := by
  unfold padLeftZeros
  simp
  omega

theorem parseFloatBody_fixed (q0 r0 : Nat) (hr : r0 < 10000) :
    parseFloatBody (natRepr q0 ++ '.' :: padLeftZeros 4 (natRepr r0)) =
      some (mkRat ((q0 * 10000 + r0 : Nat) : Int) 10000) := by
  have hdig : ∀ a ∈ natRepr q0, isDigitB a = true :=
    List.all_eq_true.1 (natRepr_all_isDigitB q0)
  have hpad : ∀ a ∈ padLeftZeros 4 (natRepr r0), isDigitB a = true :=
    padLeftZeros_all 4 (natRepr r0) (natRepr_all_isDigitB r0)
  have hdot : isDigitB '.' = false := by decide
  have hlen : (padLeftZeros 4 (natRepr r0)).length = 4 :=
    padLeftZeros_length 4 (natRepr r0)
      (natRepr_length_le r0 4 (by norm_num) (by norm_num [hr]))
  unfold parseFloatBody
  rw [dropWhile_all_append isDigitB _ '.' _ hdig hdot]
  rw [takeWhile_all_append isDigitB _ '.' _ hdig hdot]
  dsimp only
  rw [if_pos rfl]
  rw [takeWhile_all_self isDigitB _ hpad, dropWhile_all_nil isDigitB _ hpad]
  rw [if_neg (by simp [natRepr_ne_nil q0])]
  simp only [parseExp, Option.map_some]
  unfold floatValQ
  rw [digitsToNat_natRepr, digitsToNat_padLeft, digitsToNat_natRepr, hlen]
  norm_num

theorem parseFloatGo_neg_cons (rest : GoStr) :
    parseFloatGo ('-' :: rest) = (parseFloatBody rest).map (fun q => -q) := rfl

theorem parseFloatGo_cons (c : Char) (t : GoStr) (h1 : c ≠ '+') (h2 : c ≠ '-') :
    parseFloatGo (c :: t) = parseFloatBody (c :: t) := by
  unfold parseFloatGo
  split
  · next heq => rw [List.cons.injEq] at heq; exact absurd heq.1 h1
  · next heq => rw [List.cons.injEq] at heq; exact absurd heq.1 h2
  · rfl

theorem qfloor_den_one (q : ℚ) (h : q.den = 1) : qfloor q = q.num := by
  unfold qfloor
  rw [h]
  exact Int.fdiv_one q.num

theorem qround_den_one (q : ℚ) (h : q.den = 1) : qround q = q.num := by
  have hq : (q.num : ℚ) = q := Rat.coe_int_num_of_den_eq_one h
  unfold qround
  rw [qfloor_den_one q h]
  simp only [hq, sub_self]
  norm_num

theorem abs_den_eq (x : ℚ) : |x|.den = x.den := by
  rcases le_or_lt 0 x with h | h
  · rw [abs_of_nonneg h]
  · rw [abs_of_neg h]
    exact Rat.den_neg_eq_den x

theorem parseFloat_format4 (x : ℚ) (h : x.den ∣ 10000) :
    parseFloatGo (formatFloatFixed4 x) = some x := by
  have hdpos : 0 < x.den := x.den_pos
  have hdvd_t : x.den ∣ x.num.natAbs * 10000 := Dvd.dvd.mul_left h _
  have hr0 : x.num.natAbs * 10000 % x.den = 0 := Nat.mod_eq_zero_of_dvd hdvd_t
  have hform : formatFloatFixed4 x = (if x.num < 0 then ['-'] else []) ++
      natRepr (x.num.natAbs * 10000 / x.den / 10000) ++ '.' ::
        padLeftZeros 4 (natRepr (x.num.natAbs * 10000 / x.den % 10000)) := by
    simp only [formatFloatFixed4]
    rw [hr0]
    simp [hdpos]
  have hbody := parseFloatBody_fixed (x.num.natAbs * 10000 / x.den / 10000)
    (x.num.natAbs * 10000 / x.den % 10000) (Nat.mod_lt _ (by norm_num))
  have hm : x.num.natAbs * 10000 / x.den / 10000 * 10000 +
      x.num.natAbs * 10000 / x.den % 10000 = x.num.natAbs * 10000 / x.den := by
    rw [Nat.mul_comm]
    exact Nat.div_add_mod _ 10000
  rw [hm] at hbody
  have hfden : x.num.natAbs * 10000 / x.den * x.den = x.num.natAbs * 10000 :=
    Nat.div_mul_cancel hdvd_t
  have habs : |x| = ((x.num.natAbs : ℚ)) / (x.den : ℚ) := by
    conv_lhs => rw [← Rat.num_div_den x]
    rw [abs_div]
    congr 1
    · rw [← Int.cast_abs, Int.abs_eq_natAbs, Int.cast_natCast]
    · exact abs_of_nonneg (by positivity)
  have hval : mkRat ((x.num.natAbs * 10000 / x.den : Nat) : Int) 10000 = |x| := by
    rw [Rat.mkRat_eq_div, habs]
    rw [div_eq_div_iff (by norm_num) (by positivity)]
    have hc := congrArg (fun n : Nat => (n : ℚ)) hfden
    push_cast at hc
    exact hc
  rw [hform]
  by_cases hneg : x.num < 0
  · rw [if_pos hneg]
    show parseFloatGo ('-' :: (natRepr (x.num.natAbs * 10000 / x.den / 10000) ++
      '.' :: padLeftZeros 4 (natRepr (x.num.natAbs * 10000 / x.den % 10000)))) = some x
    rw [parseFloatGo_neg_cons, hbody]
    have hxneg : x < 0 := by
      by_contra hc
      exact absurd (Rat.num_nonneg.2 (not_lt.1 hc)) (not_le.2 hneg)
    show some (-(mkRat ((x.num.natAbs * 10000 / x.den : Nat) : Int) 10000)) = some x
    rw [hval, abs_of_neg hxneg, neg_neg]
  · rw [if_neg hneg]
    show parseFloatGo (natRepr (x.num.natAbs * 10000 / x.den / 10000) ++
      '.' :: padLeftZeros 4 (natRepr (x.num.natAbs * 10000 / x.den % 10000))) = some x
    obtain ⟨c, t, hct, hc1, hc2, _⟩ := natRepr_head_digit (x.num.natAbs * 10000 / x.den / 10000)
    rw [hct, List.cons_append, parseFloatGo_cons c _ hc1 hc2,
      ← List.cons_append, ← hct, hbody]
    have hxpos : 0 ≤ x := Rat.num_nonneg.1 (not_lt.1 hneg)
    rw [hval, abs_of_nonneg hxpos]

/-! ## Lemmas: character content of serialised fields -/

theorem fieldOK_props (f : GoStr) (h : fieldOK f = true) : ';' ∉ f ∧ '\n' ∉ f := by
  unfold fieldOK at h
  simp only [Bool.and_eq_true, decide_eq_true_eq] at h
  exact ⟨h.1.1, h.1.2⟩

theorem digitChar_safe : ∀ d, d < 10 →
    digitChar d ≠ ';' ∧ digitChar d ≠ '\n' ∧ goIsSpace (digitChar d) = false := by
  decide

theorem natRepr_safe (n : Nat) : ';' ∉ natRepr n ∧ '\n' ∉ natRepr n := by
  constructor
  · intro hmem
    obtain ⟨d, hd, heq⟩ := natRepr_mem_digit n _ hmem
    exact (digitChar_safe d hd).1 heq.symm
  · intro hmem
    obtain ⟨d, hd, heq⟩ := natRepr_mem_digit n _ hmem
    exact (digitChar_safe d hd).2.1 heq.symm

theorem intRepr_safe (v : Int) : ';' ∉ intRepr v ∧ '\n' ∉ intRepr v := by
  unfold intRepr
  split
  · constructor <;>
    · intro hmem
      rcases List.mem_cons.1 hmem with h | h
      · simp at h
      · first
        | exact (natRepr_safe v.natAbs).1 h
        | exact (natRepr_safe v.natAbs).2 h
  · exact natRepr_safe v.natAbs

theorem padLeftZeros_mem (k : Nat) (l : GoStr) (c : Char)
    (h : c ∈ padLeftZeros k l) : c = '0' ∨ c ∈ l := by
  rcases List.mem_append.1 h with h | h
  · exact Or.inl (List.eq_of_mem_replicate h)
  · exact Or.inr h

theorem formatFloatFixed4_safe (x : ℚ) :
    ';' ∉ formatFloatFixed4 x ∧ '\n' ∉ formatFloatFixed4 x := by
  unfold formatFloatFixed4
  constructor <;>
  · intro hmem
    rcases List.mem_append.1 hmem with h | h
    · rcases List.mem_append.1 h with h | h
      · split at h <;> simp at h
      · first
        | exact (natRepr_safe _).1 h
        | exact (natRepr_safe _).2 h
    · rcases List.mem_cons.1 h with h | h
      · simp at h
      · rcases padLeftZeros_mem 4 _ _ h with h | h
        · simp at h
        · first
          | exact (natRepr_safe _).1 h
          | exact (natRepr_safe _).2 h

theorem boolDigit_safe (b : Bool) : ';' ∉ boolDigit b ∧ '\n' ∉ boolDigit b := by
  cases b <;> decide

theorem feeLetter_safe (b : Bool) : ';' ∉ feeLetter b ∧ '\n' ∉ feeLetter b := by
  cases b <;> decide

theorem mem_joinSep (sep : GoStr) :
    ∀ (parts : List GoStr) (c : Char), c ∈ joinSep sep parts →
      c ∈ sep ∨ ∃ p ∈ parts, c ∈ p := by
  intro parts
  induction parts with
  | nil => intro c h; simp [joinSep] at h
  | cons x t ih =>
    intro c h
    cases t with
    | nil => exact Or.inr ⟨x, by simp, by simpa [joinSep] using h⟩
    | cons y u =>
      rw [joinSep_cons_ne_nil sep x (y :: u) (by simp)] at h
      rcases List.mem_append.1 h with h | h
      · rcases List.mem_append.1 h with h | h
        · exact Or.inr ⟨x, by simp, h⟩
        · exact Or.inl h
      · rcases ih c h with h | ⟨p, hp, hcp⟩
        · exact Or.inl h
        · exact Or.inr ⟨p, List.mem_cons_of_mem x hp, hcp⟩

/-! ## Lemmas: record round-trips -/

theorem goParseString_at (parts : List GoStr) (i : Nat) (f v : GoStr)
    (h : parts.get? i = some v) : goParseStringAt parts i f = (v, []) := by
  unfold goParseStringAt
  rw [h]

theorem goParseInt_at (parts : List GoStr) (i : Nat) (f : GoStr) (v : Int)
    (h : parts.get? i = some (intRepr v)) (h1 : -(2 ^ 63) ≤ v) (h2 : v < 2 ^ 63) :
    goParseIntAt parts i f = (v, []) := by
  unfold goParseIntAt
  rw [h]
  dsimp only
  rw [parseIntGo_intRepr v h1 h2]

theorem goParseFloat_at (parts : List GoStr) (i : Nat) (f : GoStr) (x : ℚ)
    (h : parts.get? i = some (formatFloatFixed4 x)) (hden : x.den ∣ 10000) :
    goParseFloatAt parts i f = (x, []) := by
  unfold goParseFloatAt
  rw [h]
  dsimp only
  rw [parseFloat_format4 x hden]

theorem goParseBool_at_digit (parts : List GoStr) (i : Nat) (f : GoStr) (b : Bool)
    (h : parts.get? i = some (boolDigit b)) :
    goParseBoolAt parts i (gs "0") f = (b, []) := by
  unfold goParseBoolAt
  rw [h]
  cases b <;> simp [boolDigit, gs]

theorem goParseBool_at_fee (parts : List GoStr) (i : Nat) (f : GoStr) (b : Bool)
    (h : parts.get? i = some (feeLetter b)) :
    goParseBoolAt parts i (gs "N") f = (b, []) := by
  unfold goParseBoolAt
  rw [h]
  cases b <;> simp [feeLetter, gs]

theorem intOK_props (v : Int) (h : intOK v = true) : -(2 ^ 63) ≤ v ∧ v < 2 ^ 63 := by
  simpa [intOK] using h

theorem floatOK_props (x : ℚ) (h : floatOK x = true) : x.den ∣ 10000 := by
  simpa [floatOK] using h

theorem casterOK_props (c : CasterEntry) (h : casterOK c = true) :
    fieldOK c.Host = true ∧ fieldOK c.Identifier = true ∧
    fieldOK c.Operator = true ∧ fieldOK c.Country = true ∧
    fieldOK c.FallbackHostAddress = true ∧ fieldOK c.Misc = true ∧
    lastFieldOK c.Misc = true ∧ intOK c.Port = true ∧
    intOK c.FallbackHostPort = true ∧ floatOK c.Latitude = true ∧
    floatOK c.Longitude = true := by
  unfold casterOK at h
  simp only [Bool.and_eq_true] at h
  obtain ⟨⟨⟨⟨⟨⟨⟨⟨⟨⟨h1, h2⟩, h3⟩, h4⟩, h5⟩, h6⟩, h7⟩, h8⟩, h9⟩, h10⟩, h11⟩ := h
  exact ⟨h1, h2, h3, h4, h5, h6, h7, h8, h9, h10, h11⟩

theorem casterFields_free (c : CasterEntry) (h : casterOK c = true) :
    ∀ p ∈ casterFields c, ';' ∉ p ∧ '\n' ∉ p := by
  obtain ⟨h1, h2, h3, h4, h5, h6, _, _, _, _, _⟩ := casterOK_props c h
  intro p hp
  simp only [casterFields, List.mem_cons, List.not_mem_nil, or_false] at hp
  rcases hp with rfl | rfl | rfl | rfl | rfl | rfl | rfl | rfl | rfl | rfl | rfl | rfl
  · exact ⟨by decide, by decide⟩
  · exact fieldOK_props _ h1
  · exact intRepr_safe _
  · exact fieldOK_props _ h2
  · exact fieldOK_props _ h3
  · exact boolDigit_safe _
  · exact fieldOK_props _ h4
  · exact formatFloatFixed4_safe _
  · exact formatFloatFixed4_safe _
  · exact fieldOK_props _ h5
  · exact intRepr_safe _
  · exact fieldOK_props _ h6

theorem casterString_split (c : CasterEntry) (h : casterOK c = true) :
    splitOnChar ';' (casterString c) = casterFields c := by
  have : casterString c = joinSep [';'] (casterFields c) := rfl
  rw [this]
  exact splitOnChar_joinSep ';' (casterFields c) (by simp [casterFields])
    (fun p hp => (casterFields_free c h p hp).1)

theorem ParseCasterEntry_roundtrip (c : CasterEntry) (h : casterOK c = true) :
    ParseCasterEntry (casterString c) = (c, []) := by
  obtain ⟨_, _, _, _, _, _, _, h8, h9, h10, h11⟩ := casterOK_props c h
  have hsplit := casterString_split c h
  have g1 : (splitOnChar ';' (casterString c)).get? 1 = some c.Host := by
    rw [hsplit]; rfl
  have g2 : (splitOnChar ';' (casterString c)).get? 2 = some (intRepr c.Port) := by
    rw [hsplit]; rfl
  have g3 : (splitOnChar ';' (casterString c)).get? 3 = some c.Identifier := by
    rw [hsplit]; rfl
  have g4 : (splitOnChar ';' (casterString c)).get? 4 = some c.Operator := by
    rw [hsplit]; rfl
  have g5 : (splitOnChar ';' (casterString c)).get? 5 = some (boolDigit c.NMEA) := by
    rw [hsplit]; rfl
  have g6 : (splitOnChar ';' (casterString c)).get? 6 = some c.Country := by
    rw [hsplit]; rfl
  have g7 : (splitOnChar ';' (casterString c)).get? 7 =
      some (formatFloatFixed4 c.Latitude) := by
    rw [hsplit]; rfl
  have g8 : (splitOnChar ';' (casterString c)).get? 8 =
      some (formatFloatFixed4 c.Longitude) := by
    rw [hsplit]; rfl
  have g9 : (splitOnChar ';' (casterString c)).get? 9 =
      some c.FallbackHostAddress := by
    rw [hsplit]; rfl
  have g10 : (splitOnChar ';' (casterString c)).get? 10 =
      some (intRepr c.FallbackHostPort) := by
    rw [hsplit]; rfl
  have g11 : (splitOnChar ';' (casterString c)).get? 11 = some c.Misc := by
    rw [hsplit]; rfl
  simp only [ParseCasterEntry]
  rw [goParseString_at _ _ _ _ g1,
    goParseInt_at _ _ _ _ g2 (intOK_props _ h8).1 (intOK_props _ h8).2,
    goParseString_at _ _ _ _ g3, goParseString_at _ _ _ _ g4,
    goParseBool_at_digit _ _ _ _ g5, goParseString_at _ _ _ _ g6,
    goParseFloat_at _ _ _ _ g7 (floatOK_props _ h10),
    goParseFloat_at _ _ _ _ g8 (floatOK_props _ h11),
    goParseString_at _ _ _ _ g9,
    goParseInt_at _ _ _ _ g10 (intOK_props _ h9).1 (intOK_props _ h9).2,
    goParseString_at _ _ _ _ g11]
  rfl

theorem networkOK_props (n : NetworkEntry) (h : networkOK n = true) :
    fieldOK n.Identifier = true ∧ fieldOK n.Operator = true ∧
    fieldOK n.Authentication = true ∧ fieldOK n.NetworkInfoURL = true ∧
    fieldOK n.StreamInfoURL = true ∧ fieldOK n.RegistrationAddress = true ∧
    fieldOK n.Misc = true ∧ lastFieldOK n.Misc = true := by
  unfold networkOK at h
  simp only [Bool.and_eq_true] at h
  obtain ⟨⟨⟨⟨⟨⟨⟨h1, h2⟩, h3⟩, h4⟩, h5⟩, h6⟩, h7⟩, h8⟩ := h
  exact ⟨h1, h2, h3, h4, h5, h6, h7, h8⟩

theorem networkFields_free (n : NetworkEntry) (h : networkOK n = true) :
    ∀ p ∈ networkFields n, ';' ∉ p ∧ '\n' ∉ p := by
  obtain ⟨h1, h2, h3, h4, h5, h6, h7, _⟩ := networkOK_props n h
  intro p hp
  simp only [networkFields, List.mem_cons, List.not_mem_nil, or_false] at hp
  rcases hp with rfl | rfl | rfl | rfl | rfl | rfl | rfl | rfl | rfl
  · exact ⟨by decide, by decide⟩
  · exact fieldOK_props _ h1
  · exact fieldOK_props _ h2
  · exact fieldOK_props _ h3
  · exact feeLetter_safe _
  · exact fieldOK_props _ h4
  · exact fieldOK_props _ h5
  · exact fieldOK_props _ h6
  · exact fieldOK_props _ h7

theorem networkString_split (n : NetworkEntry) (h : networkOK n = true) :
    splitOnChar ';' (networkString n) = networkFields n := by
  have heq : networkString n = joinSep [';'] (networkFields n) := rfl
  rw [heq]
  exact splitOnChar_joinSep ';' (networkFields n) (by simp [networkFields])
    (fun p hp => (networkFields_free n h p hp).1)

theorem ParseNetworkEntry_roundtrip (n : NetworkEntry) (h : networkOK n = true) :
    ParseNetworkEntry (networkString n) = (n, []) := by
  have hsplit := networkString_split n h
  have g1 : (splitOnChar ';' (networkString n)).get? 1 = some n.Identifier := by
    rw [hsplit]; rfl
  have g2 : (splitOnChar ';' (networkString n)).get? 2 = some n.Operator := by
    rw [hsplit]; rfl
  have g3 : (splitOnChar ';' (networkString n)).get? 3 = some n.Authentication := by
    rw [hsplit]; rfl
  have g4 : (splitOnChar ';' (networkString n)).get? 4 = some (feeLetter n.Fee) := by
    rw [hsplit]; rfl
  have g5 : (splitOnChar ';' (networkString n)).get? 5 = some n.NetworkInfoURL := by
    rw [hsplit]; rfl
  have g6 : (splitOnChar ';' (networkString n)).get? 6 = some n.StreamInfoURL := by
    rw [hsplit]; rfl
  have g7 : (splitOnChar ';' (networkString n)).get? 7 =
      some n.RegistrationAddress := by
    rw [hsplit]; rfl
  have g8 : (splitOnChar ';' (networkString n)).get? 8 = some n.Misc := by
    rw [hsplit]; rfl
  simp only [ParseNetworkEntry]
  rw [goParseString_at _ _ _ _ g1, goParseString_at _ _ _ _ g2,
    goParseString_at _ _ _ _ g3, goParseBool_at_fee _ _ _ _ g4,
    goParseString_at _ _ _ _ g5, goParseString_at _ _ _ _ g6,
    goParseString_at _ _ _ _ g7, goParseString_at _ _ _ _ g8]
  rfl

theorem streamOK_props (m : StreamEntry) (h : streamOK m = true) :
    fieldOK m.Name = true ∧ fieldOK m.Identifier = true ∧
    fieldOK m.Format = true ∧ fieldOK m.FormatDetails = true ∧
    fieldOK m.Carrier = true ∧ fieldOK m.NavSystem = true ∧
    fieldOK m.Network = true ∧ fieldOK m.CountryCode = true ∧
    fieldOK m.Generator = true ∧ fieldOK m.Compression = true ∧
    fieldOK m.Authentication = true ∧ fieldOK m.Misc = true ∧
    lastFieldOK m.Misc = true ∧ intOK m.Bitrate = true ∧
    floatOK m.Latitude = true ∧ floatOK m.Longitude = true := by
  unfold streamOK at h
  simp only [Bool.and_eq_true] at h
  obtain ⟨⟨⟨⟨⟨⟨⟨⟨⟨⟨⟨⟨⟨⟨⟨h1, h2⟩, h3⟩, h4⟩, h5⟩, h6⟩, h7⟩, h8⟩, h9⟩, h10⟩,
    h11⟩, h12⟩, h13⟩, h14⟩, h15⟩, h16⟩ := h
  exact ⟨h1, h2, h3, h4, h5, h6, h7, h8, h9, h10, h11, h12, h13, h14, h15, h16⟩

theorem streamFields_free (m : StreamEntry) (h : streamOK m = true) :
    ∀ p ∈ streamFields m, ';' ∉ p ∧ '\n' ∉ p := by
  obtain ⟨h1, h2, h3, h4, h5, h6, h7, h8, h9, h10, h11, h12, _, _, _, _⟩ :=
    streamOK_props m h
  intro p hp
  simp only [streamFields, List.mem_cons, List.not_mem_nil, or_false] at hp
  rcases hp with rfl | rfl | rfl | rfl | rfl | rfl | rfl | rfl | rfl | rfl |
    rfl | rfl | rfl | rfl | rfl | rfl | rfl | rfl | rfl
  · exact ⟨by decide, by decide⟩
  · exact fieldOK_props _ h1
  · exact fieldOK_props _ h2
  · exact fieldOK_props _ h3
  · exact fieldOK_props _ h4
  · exact fieldOK_props _ h5
  · exact fieldOK_props _ h6
  · exact fieldOK_props _ h7
  · exact fieldOK_props _ h8
  · exact formatFloatFixed4_safe _
  · exact formatFloatFixed4_safe _
  · exact boolDigit_safe _
  · exact boolDigit_safe _
  · exact fieldOK_props _ h9
  · exact fieldOK_props _ h10
  · exact fieldOK_props _ h11
  · exact feeLetter_safe _
  · exact intRepr_safe _
  · exact fieldOK_props _ h12

theorem streamString_split (m : StreamEntry) (h : streamOK m = true) :
    splitOnChar ';' (streamString m) = streamFields m := by
  have heq : streamString m = joinSep [';'] (streamFields m) := rfl
  rw [heq]
  exact splitOnChar_joinSep ';' (streamFields m) (by simp [streamFields])
    (fun p hp => (streamFields_free m h p hp).1)

theorem ParseStreamEntry_roundtrip (m : StreamEntry) (h : streamOK m = true) :
    ParseStreamEntry (streamString m) = (m, []) := by
  obtain ⟨_, _, _, _, _, _, _, _, _, _, _, _, _, h14, h15, h16⟩ :=
    streamOK_props m h
  have hsplit := streamString_split m h
  have g1 : (splitOnChar ';' (streamString m)).get? 1 = some m.Name := by
    rw [hsplit]; rfl
  have g2 : (splitOnChar ';' (streamString m)).get? 2 = some m.Identifier := by
    rw [hsplit]; rfl
  have g3 : (splitOnChar ';' (streamString m)).get? 3 = some m.Format := by
    rw [hsplit]; rfl
  have g4 : (splitOnChar ';' (streamString m)).get? 4 = some m.FormatDetails := by
    rw [hsplit]; rfl
  have g5 : (splitOnChar ';' (streamString m)).get? 5 = some m.Carrier := by
    rw [hsplit]; rfl
  have g6 : (splitOnChar ';' (streamString m)).get? 6 = some m.NavSystem := by
    rw [hsplit]; rfl
  have g7 : (splitOnChar ';' (streamString m)).get? 7 = some m.Network := by
    rw [hsplit]; rfl
  have g8 : (splitOnChar ';' (streamString m)).get? 8 = some m.CountryCode := by
    rw [hsplit]; rfl
  have g9 : (splitOnChar ';' (streamString m)).get? 9 =
      some (formatFloatFixed4 m.Latitude) := by
    rw [hsplit]; rfl
  have g10 : (splitOnChar ';' (streamString m)).get? 10 =
      some (formatFloatFixed4 m.Longitude) := by
    rw [hsplit]; rfl
  have g11 : (splitOnChar ';' (streamString m)).get? 11 =
      some (boolDigit m.NMEA) := by
    rw [hsplit]; rfl
  have g12 : (splitOnChar ';' (streamString m)).get? 12 =
      some (boolDigit m.Solution) := by
    rw [hsplit]; rfl
  have g13 : (splitOnChar ';' (streamString m)).get? 13 = some m.Generator := by
    rw [hsplit]; rfl
  have g14 : (splitOnChar ';' (streamString m)).get? 14 = some m.Compression := by
    rw [hsplit]; rfl
  have g15 : (splitOnChar ';' (streamString m)).get? 15 =
      some m.Authentication := by
    rw [hsplit]; rfl
  have g16 : (splitOnChar ';' (streamString m)).get? 16 =
      some (feeLetter m.Fee) := by
    rw [hsplit]; rfl
  have g17 : (splitOnChar ';' (streamString m)).get? 17 =
      some (intRepr m.Bitrate) := by
    rw [hsplit]; rfl
  have g18 : (splitOnChar ';' (streamString m)).get? 18 = some m.Misc := by
    rw [hsplit]; rfl
  simp only [ParseStreamEntry]
  rw [goParseString_at _ _ _ _ g1, goParseString_at _ _ _ _ g2,
    goParseString_at _ _ _ _ g3, goParseString_at _ _ _ _ g4,
    goParseString_at _ _ _ _ g5, goParseString_at _ _ _ _ g6,
    goParseString_at _ _ _ _ g7, goParseString_at _ _ _ _ g8,
    goParseFloat_at _ _ _ _ g9 (floatOK_props _ h15),
    goParseFloat_at _ _ _ _ g10 (floatOK_props _ h16),
    goParseBool_at_digit _ _ _ _ g11, goParseBool_at_digit _ _ _ _ g12,
    goParseString_at _ _ _ _ g13, goParseString_at _ _ _ _ g14,
    goParseString_at _ _ _ _ g15, goParseBool_at_fee _ _ _ _ g16,
    goParseInt_at _ _ _ _ g17 (intOK_props _ h14).1 (intOK_props _ h14).2,
    goParseString_at _ _ _ _ g18]
  rfl

/-! ## Lemmas: serialised lines through the parse loop -/

theorem trimRight_joinSep_last :
    ∀ (fs : List GoStr) (m : GoStr), trimRight m = m →
      trimRight (joinSep [';'] (fs ++ [m])) = joinSep [';'] (fs ++ [m]) := by
  intro fs
  induction fs with
  | nil => intro m hm; simpa [joinSep] using hm
  | cons f t ih =>
    intro m hm
    rw [List.cons_append, joinSep_cons_ne_nil [';'] f (t ++ [m]) (by simp)]
    have hb : trimRight (';' :: joinSep [';'] (t ++ [m])) =
        ';' :: joinSep [';'] (t ++ [m]) :=
      trimRight_cons_of_self ';' _ (by decide) (ih m hm)
    have : f ++ [';'] ++ joinSep [';'] (t ++ [m]) =
        f ++ (';' :: joinSep [';'] (t ++ [m])) := by simp
    rw [this, trimRight_append_of f _ (by simp) hb]

theorem lastFieldOK_props (f : GoStr) (h : lastFieldOK f = true) :
    trimRight f = f := by
  simpa [lastFieldOK] using h

theorem casterLine_props (c : CasterEntry) (h : casterOK c = true) :
    trimSpace (casterString c ++ ['\r']) = casterString c ∧
    casterString c ≠ [] ∧ casterString c ≠ gs "ENDSOURCETABLE" ∧
    ¬ (casterString c).length < 3 ∧ (casterString c).take 3 = gs "CAS" := by
  obtain ⟨_, _, _, _, _, _, h7, _, _, _, _⟩ := casterOK_props c h
  have hdec : casterString c = 'C' :: 'A' :: 'S' :: ';' ::
      joinSep [';'] [c.Host, intRepr c.Port, c.Identifier, c.Operator,
        boolDigit c.NMEA, c.Country, formatFloatFixed4 c.Latitude,
        formatFloatFixed4 c.Longitude, c.FallbackHostAddress,
        intRepr c.FallbackHostPort, c.Misc] := rfl
  have htr : trimRight (casterString c) = casterString c := by
    have heq : casterString c = joinSep [';']
        ([gs "CAS", c.Host, intRepr c.Port, c.Identifier, c.Operator,
          boolDigit c.NMEA, c.Country, formatFloatFixed4 c.Latitude,
          formatFloatFixed4 c.Longitude, c.FallbackHostAddress,
          intRepr c.FallbackHostPort] ++ [c.Misc]) := rfl
    rw [heq]
    exact trimRight_joinSep_last _ c.Misc (lastFieldOK_props _ h7)
  refine ⟨?_, ?_, ?_, ?_, ?_⟩
  · rw [trimSpace]
    have hl : trimLeft (casterString c ++ ['\r']) = casterString c ++ ['\r'] := by
      rw [hdec]
      exact trimLeft_cons 'C' _ (by decide)
    rw [hl, trimRight_append_cr, htr]
  · rw [hdec]; simp
  · rw [hdec]; simp [gs]
  · rw [hdec]; simp
  · rw [hdec]; rfl

theorem networkLine_props (n : NetworkEntry) (h : networkOK n = true) :
    trimSpace (networkString n ++ ['\r']) = networkString n ∧
    networkString n ≠ [] ∧ networkString n ≠ gs "ENDSOURCETABLE" ∧
    ¬ (networkString n).length < 3 ∧ (networkString n).take 3 ≠ gs "CAS" ∧
    (networkString n).take 3 = gs "NET" := by
  obtain ⟨_, _, _, _, _, _, _, h8⟩ := networkOK_props n h
  have hdec : networkString n = 'N' :: 'E' :: 'T' :: ';' ::
      joinSep [';'] [n.Identifier, n.Operator, n.Authentication,
        feeLetter n.Fee, n.NetworkInfoURL, n.StreamInfoURL,
        n.RegistrationAddress, n.Misc] := rfl
  have htr : trimRight (networkString n) = networkString n := by
    have heq : networkString n = joinSep [';']
        ([gs "NET", n.Identifier, n.Operator, n.Authentication,
          feeLetter n.Fee, n.NetworkInfoURL, n.StreamInfoURL,
          n.RegistrationAddress] ++ [n.Misc]) := rfl
    rw [heq]
    exact trimRight_joinSep_last _ n.Misc (lastFieldOK_props _ h8)
  refine ⟨?_, ?_, ?_, ?_, ?_, ?_⟩
  · rw [trimSpace]
    have hl : trimLeft (networkString n ++ ['\r']) = networkString n ++ ['\r'] := by
      rw [hdec]
      exact trimLeft_cons 'N' _ (by decide)
    rw [hl, trimRight_append_cr, htr]
  · rw [hdec]; simp
  · rw [hdec]; simp [gs]
  · rw [hdec]; simp
  · rw [hdec]; simp [gs]
  · rw [hdec]; rfl

theorem streamLine_props (m : StreamEntry) (h : streamOK m = true) :
    trimSpace (streamString m ++ ['\r']) = streamString m ∧
    streamString m ≠ [] ∧ streamString m ≠ gs "ENDSOURCETABLE" ∧
    ¬ (streamString m).length < 3 ∧ (streamString m).take 3 ≠ gs "CAS" ∧
    (streamString m).take 3 ≠ gs "NET" ∧ (streamString m).take 3 = gs "STR" := by
  obtain ⟨_, _, _, _, _, _, _, _, _, _, _, _, h13, _, _, _⟩ := streamOK_props m h
  have hdec : streamString m = 'S' :: 'T' :: 'R' :: ';' ::
      joinSep [';'] [m.Name, m.Identifier, m.Format, m.FormatDetails,
        m.Carrier, m.NavSystem, m.Network, m.CountryCode,
        formatFloatFixed4 m.Latitude, formatFloatFixed4 m.Longitude,
        boolDigit m.NMEA, boolDigit m.Solution, m.Generator, m.Compression,
        m.Authentication, feeLetter m.Fee, intRepr m.Bitrate, m.Misc] := rfl
  have htr : trimRight (streamString m) = streamString m := by
    have heq : streamString m = joinSep [';']
        ([gs "STR", m.Name, m.Identifier, m.Format, m.FormatDetails,
          m.Carrier, m.NavSystem, m.Network, m.CountryCode,
          formatFloatFixed4 m.Latitude, formatFloatFixed4 m.Longitude,
          boolDigit m.NMEA, boolDigit m.Solution, m.Generator, m.Compression,
          m.Authentication, feeLetter m.Fee, intRepr m.Bitrate] ++ [m.Misc]) := rfl
    rw [heq]
    exact trimRight_joinSep_last _ m.Misc (lastFieldOK_props _ h13)
  refine ⟨?_, ?_, ?_, ?_, ?_, ?_, ?_⟩
  · rw [trimSpace]
    have hl : trimLeft (streamString m ++ ['\r']) = streamString m ++ ['\r'] := by
      rw [hdec]
      exact trimLeft_cons 'S' _ (by decide)
    rw [hl, trimRight_append_cr, htr]
  · rw [hdec]; simp
  · rw [hdec]; simp [gs]
  · rw [hdec]; simp
  · rw [hdec]; simp [gs]
  · rw [hdec]; simp [gs]
  · rw [hdec]; rfl

theorem parseLines_end (n : Nat) (t : Sourcetable) (w : List GoStr) :
    parseSourcetableLines [gs "ENDSOURCETABLE\r", []] n t w = .ok (t, w) := by
  have h1 : trimSpace (gs "ENDSOURCETABLE\r") = gs "ENDSOURCETABLE" := by decide
  have h2 : gs "ENDSOURCETABLE" ≠ ([] : GoStr) := by decide
  simp only [parseSourcetableLines, h1]
  rw [if_neg h2, if_pos trivial]

theorem parseLines_casters :
    ∀ (cs : List CasterEntry) (rest : List GoStr) (n : Nat) (t : Sourcetable)
      (w : List GoStr), (∀ c ∈ cs, casterOK c = true) →
      parseSourcetableLines ((cs.map fun c => casterString c ++ ['\r']) ++ rest) n t w =
        parseSourcetableLines rest (n + cs.length)
          { t with Casters := t.Casters ++ cs } w := by
  intro cs
  induction cs with
  | nil => intro rest n t w _; simp
  | cons c cs' ih =>
    intro rest n t w hok
    obtain ⟨htrim, hne, hnend, hlen, htag⟩ := casterLine_props c (hok c (by simp))
    rw [List.map_cons, List.cons_append]
    simp only [parseSourcetableLines, htrim]
    rw [if_neg hne, if_neg hnend, if_neg hlen, if_pos htag,
      ParseCasterEntry_roundtrip c (hok c (by simp))]
    simp only [wrapLineErrs, List.map_nil, List.append_nil]
    rw [ih rest (n + 1) _ w (fun x hx => hok x (List.mem_cons_of_mem c hx))]
    have harith : n + 1 + cs'.length = n + (c :: cs').length := by simp; omega
    have hlist : (t.Casters ++ [c]) ++ cs' = t.Casters ++ (c :: cs') := by simp
    rw [harith]
    congr 1
    simp

theorem parseLines_networks :
    ∀ (ns : List NetworkEntry) (rest : List GoStr) (n : Nat) (t : Sourcetable)
      (w : List GoStr), (∀ x ∈ ns, networkOK x = true) →
      parseSourcetableLines ((ns.map fun x => networkString x ++ ['\r']) ++ rest) n t w =
        parseSourcetableLines rest (n + ns.length)
          { t with Networks := t.Networks ++ ns } w := by
  intro ns
  induction ns with
  | nil => intro rest n t w _; simp
  | cons x ns' ih =>
    intro rest n t w hok
    obtain ⟨htrim, hne, hnend, hlen, hncas, htag⟩ := networkLine_props x (hok x (by simp))
    rw [List.map_cons, List.cons_append]
    simp only [parseSourcetableLines, htrim]
    rw [if_neg hne, if_neg hnend, if_neg hlen, if_neg hncas, if_pos htag,
      ParseNetworkEntry_roundtrip x (hok x (by simp))]
    simp only [wrapLineErrs, List.map_nil, List.append_nil]
    rw [ih rest (n + 1) _ w (fun y hy => hok y (List.mem_cons_of_mem x hy))]
    have harith : n + 1 + ns'.length = n + (x :: ns').length := by simp; omega
    rw [harith]
    congr 1
    simp

theorem parseLines_streams :
    ∀ (ms : List StreamEntry) (rest : List GoStr) (n : Nat) (t : Sourcetable)
      (w : List GoStr), (∀ x ∈ ms, streamOK x = true) →
      parseSourcetableLines ((ms.map fun x => streamString x ++ ['\r']) ++ rest) n t w =
        parseSourcetableLines rest (n + ms.length)
          { t with Mounts := t.Mounts ++ ms } w := by
  intro ms
  induction ms with
  | nil => intro rest n t w _; simp
  | cons x ms' ih =>
    intro rest n t w hok
    obtain ⟨htrim, hne, hnend, hlen, hncas, hnnet, htag⟩ :=
      streamLine_props x (hok x (by simp))
    rw [List.map_cons, List.cons_append]
    simp only [parseSourcetableLines, htrim]
    rw [if_neg hne, if_neg hnend, if_neg hlen, if_neg hncas, if_neg hnnet,
      if_pos htag, ParseStreamEntry_roundtrip x (hok x (by simp))]
    simp only [wrapLineErrs, List.map_nil, List.append_nil]
    rw [ih rest (n + 1) _ w (fun y hy => hok y (List.mem_cons_of_mem x hy))]
    have harith : n + 1 + ms'.length = n + (x :: ms').length := by simp; omega
    rw [harith]
    congr 1
    simp

theorem casterString_no_nl (c : CasterEntry) (h : casterOK c = true) :
    '\n' ∉ casterString c := by
  intro hmem
  have hj : ('\n' : Char) ∈ joinSep [';'] (casterFields c) := hmem
  rcases mem_joinSep [';'] (casterFields c) '\n' hj with hs | ⟨p, hp, hcp⟩
  · simp at hs
  · exact (casterFields_free c h p hp).2 hcp

theorem networkString_no_nl (n : NetworkEntry) (h : networkOK n = true) :
    '\n' ∉ networkString n := by
  intro hmem
  have hj : ('\n' : Char) ∈ joinSep [';'] (networkFields n) := hmem
  rcases mem_joinSep [';'] (networkFields n) '\n' hj with hs | ⟨p, hp, hcp⟩
  · simp at hs
  · exact (networkFields_free n h p hp).2 hcp

theorem streamString_no_nl (m : StreamEntry) (h : streamOK m = true) :
    '\n' ∉ streamString m := by
  intro hmem
  have hj : ('\n' : Char) ∈ joinSep [';'] (streamFields m) := hmem
  rcases mem_joinSep [';'] (streamFields m) '\n' hj with hs | ⟨p, hp, hcp⟩
  · simp at hs
  · exact (streamFields_free m h p hp).2 hcp

/-- C1, amended: serialise-then-parse recovers the table exactly, for tables
whose string fields are free of separators, newlines and the terminator
sentinel, whose `Misc` fields do not end in whitespace, whose coordinates
are exact multiples of 0.0001, and whose integer fields are 64-bit. -/
theorem ParseSourcetable_roundtrip (st : Sourcetable)
    (h : sourcetableOK st = true) :
    ParseSourcetable (sourcetableString st) = .ok (st, []) := by
  simp only [sourcetableOK, Bool.and_eq_true] at h
  obtain ⟨⟨h1, h2⟩, h3⟩ := h
  have hcasOK : ∀ c ∈ st.Casters, casterOK c = true :=
    fun c hc => List.all_eq_true.1 h1 c hc
  have hnetOK : ∀ x ∈ st.Networks, networkOK x = true :=
    fun x hx => List.all_eq_true.1 h2 x hx
  have hstrOK : ∀ x ∈ st.Mounts, streamOK x = true :=
    fun x hx => List.all_eq_true.1 h3 x hx
  have hLnl : ∀ l ∈ st.Casters.map casterString ++ st.Networks.map networkString ++
      st.Mounts.map streamString, '\n' ∉ l := by
    intro l hl
    rcases List.mem_append.1 hl with hl | hl
    · rcases List.mem_append.1 hl with hl | hl
      · obtain ⟨c, hc, rfl⟩ := List.mem_map.1 hl
        exact casterString_no_nl c (hcasOK c hc)
      · obtain ⟨x, hx, rfl⟩ := List.mem_map.1 hl
        exact networkString_no_nl x (hnetOK x hx)
    · obtain ⟨x, hx, rfl⟩ := List.mem_map.1 hl
      exact streamString_no_nl x (hstrOK x hx)
  have hsplit : splitOnChar '\n' (sourcetableString st) =
      (st.Casters.map casterString ++ st.Networks.map networkString ++
        st.Mounts.map streamString).map (· ++ ['\r']) ++
        [gs "ENDSOURCETABLE\r", []] := by
    have hform : sourcetableString st = joinSep (gs "\r\n")
        ((st.Casters.map casterString ++ st.Networks.map networkString ++
          st.Mounts.map streamString) ++ [gs "ENDSOURCETABLE\r\n"]) := rfl
    rw [hform]
    exact splitOnChar_joinSep_crlf _ hLnl
  show parseSourcetableLines (splitOnChar '\n' (sourcetableString st)) 0 ⟨[], [], []⟩ [] =
    .ok (st, [])
  rw [hsplit]
  have hmap : (st.Casters.map casterString ++ st.Networks.map networkString ++
      st.Mounts.map streamString).map (· ++ ['\r']) =
      st.Casters.map (fun c => casterString c ++ ['\r']) ++
        (st.Networks.map (fun x => networkString x ++ ['\r']) ++
          st.Mounts.map (fun x => streamString x ++ ['\r'])) := by
    simp only [List.map_append, List.map_map, List.append_assoc]
    rfl
  rw [hmap, List.append_assoc, parseLines_casters st.Casters _ 0 _ [] hcasOK,
    List.append_assoc, parseLines_networks st.Networks _ _ _ [] hnetOK,
    parseLines_streams st.Mounts _ _ _ [] hstrOK, parseLines_end]
  simp

/-! ## Claim theorems -/

/-- C1 (counterexample): a table whose string fields satisfy exactly the
claim's hypotheses — no `;`, no newline, no terminator sentinel — yet whose
parse-of-serialisation differs from the original (trailing space in `Misc`
is trimmed away, and a latitude of 0.00012 is rounded to 0.0001). -/
theorem roundtrip_fails_on_cexTable :
    tableStringFieldsOK cexTable = true ∧
      parsedTableOf (ParseSourcetable (sourcetableString cexTable)) ≠
        some cexTable := by
  decide

/-- C1 (witness input for the amended round-trip theorem). -/
theorem ParseSourcetable_roundtrip_witness :
    sourcetableOK ⟨[⟨gs "h", 2101, gs "id", gs "op", true, gs "DEU",
        mkRat 101 2, mkRat (-1) 4, gs "fb", 80, gs "m1"⟩], [],
      [⟨gs "AAA", gs "i", gs "RTCM", [], [], [], [], gs "DEU", mkRat 0 1, mkRat 0 1,
        false, true, [], [], gs "B", true, 9600, gs "m2"⟩]⟩ = true ∧
    ParseSourcetable (sourcetableString ⟨[⟨gs "h", 2101, gs "id", gs "op",
        true, gs "DEU", mkRat 101 2, mkRat (-1) 4, gs "fb", 80, gs "m1"⟩], [],
      [⟨gs "AAA", gs "i", gs "RTCM", [], [], [], [], gs "DEU", mkRat 0 1, mkRat 0 1,
        false, true, [], [], gs "B", true, 9600, gs "m2"⟩]⟩) =
      .ok (⟨[⟨gs "h", 2101, gs "id", gs "op", true, gs "DEU",
        mkRat 101 2, mkRat (-1) 4, gs "fb", 80, gs "m1"⟩], [],
      [⟨gs "AAA", gs "i", gs "RTCM", [], [], [], [], gs "DEU", mkRat 0 1, mkRat 0 1,
        false, true, [], [], gs "B", true, 9600, gs "m2"⟩]⟩, []) :=
  ⟨by decide, ParseSourcetable_roundtrip _ (by decide)⟩

/-- C2 (code evidence): the in-memory service returns its configured
sourcetable verbatim, so a mount with no attached publisher is still
advertised — against the claim that the snapshot contains only online
mounts. -/
theorem getSourcetable_includes_offline_mount :
    getSourcetableInMemory offlineSvc = offlineSvc.sourcetable ∧
      offlineStream ∈ (getSourcetableInMemory offlineSvc).Mounts ∧
      lookupMount (gs "OFFLINE1") offlineSvc.mounts = none := by
  refine ⟨rfl, ?_, rfl⟩
  decide

/-- C3 (code evidence): a trimmed non-blank line shorter than three
characters makes `ParseSourcetable` panic (`line[:3]` out of range) instead
of being skipped; everything after it is lost. -/
theorem ParseSourcetable_short_line_panics :
    ParseSourcetable (gs "CAS;host;2101\nX\nSTR;M") = .error panicSliceMsg ∧
      ParseSourcetable (gs "X") = .error panicSliceMsg :=
  ⟨rfl, rfl⟩

/-- C4: a publish on a mount that is already in the registry is rejected
with Conflict, the registry state — including the incumbent's subscriber
list — is returned unchanged, and the v2 handler maps Conflict to 409. -/
theorem svcPublisher_conflict_preserves_state (auth : AuthFun) (s : SvcState)
    (m u p : GoStr) (ws : List Nat)
    (hauth : auth .publish m u p = .ok true)
    (hmount : lookupMount m s.mounts = some ws) :
    svcPublisher auth s m u p = (.error .conflict, s) ∧
      v2StatusForError (some .conflict) = some 409 := by
  constructor
  · unfold svcPublisher
    rw [hauth]
    dsimp only
    rw [hmount]
  · rfl

theorem svcPublisher_conflict_witness :
    svcPublisher (fun _ _ _ _ => .ok true) ⟨⟨[], [], []⟩, [(gs "M", [7])]⟩
        (gs "M") [] [] =
      (.error .conflict, ⟨⟨[], [], []⟩, [(gs "M", [7])]⟩) ∧
      v2StatusForError (some .conflict) = some 409 :=
  svcPublisher_conflict_preserves_state (fun _ _ _ _ => .ok true)
    ⟨⟨[], [], []⟩, [(gs "M", [7])]⟩ (gs "M") [] [] [7] rfl (by decide)

/-- C5: a GET of `/` whose `Ntrip-Version` header does not (case-
insensitively) read `Ntrip/2.0` is answered on the hijacked socket with
exactly the v1 sourcetable preamble, the length of the serialised table,
a blank line and the table itself. -/
theorem handleRequest_v1_sourcetable (st : Sourcetable) (v : GoStr)
    (h : asciiUpper v ≠ gs "NTRIP/2.0") :
    handleRequestModel st ⟨.GET, gs "/", v⟩ =
      .raw (gs "SOURCETABLE 200 OK\r\nConnection: close\r\nContent-Type: text/plain\r\nContent-Length: " ++
        natRepr (sourcetableString st).length ++ gs "\r\n\r\n" ++
        sourcetableString st) := by
  unfold handleRequestModel
  have hup : asciiUpper NTRIPVersionHeaderValueV2 = gs "NTRIP/2.0" := by decide
  rw [hup]
  rw [if_neg h, if_neg (by simp), if_pos rfl]
  rfl

theorem handleRequest_v1_sourcetable_witness :
    asciiUpper [] ≠ gs "NTRIP/2.0" ∧
    handleRequestModel ⟨[], [], []⟩ ⟨.GET, gs "/", []⟩ =
      .raw (gs "SOURCETABLE 200 OK\r\nConnection: close\r\nContent-Type: text/plain\r\nContent-Length: " ++
        natRepr (sourcetableString ⟨[], [], []⟩).length ++ gs "\r\n\r\n" ++
        sourcetableString ⟨[], [], []⟩) :=
  ⟨by decide, handleRequest_v1_sourcetable ⟨[], [], []⟩ [] (by decide)⟩

/-- C6: the v1 SOURCE listener answers a malformed request line with
`ERROR - Bad Request`, and a well-formed one with exactly the response the
spec prescribes for the service outcome (OK plus copying on success, the
specific ERROR lines otherwise). -/
theorem sourceHandleConn_responses (line : GoStr) (hs : List (GoStr × GoStr))
    (pub : GoStr → GoStr → GoStr → Except NtripError Unit) :
    ((splitOnChar ' ' (trimSpace line)).length < 3 ∨
        (splitOnChar ' ' (trimSpace line)).getD 0 [] ≠ gs "SOURCE" →
      sourceHandleConn line hs pub = (gs "ERROR - Bad Request\r\n", false)) ∧
    (¬ ((splitOnChar ' ' (trimSpace line)).length < 3 ∨
        (splitOnChar ' ' (trimSpace line)).getD 0 [] ≠ gs "SOURCE") →
      sourceHandleConn line hs pub =
        sourceResponseFor (pub ((splitOnChar ' ' (trimSpace line)).getD 2 [])
          (usernameFromHeaders hs)
          ((splitOnChar ' ' (trimSpace line)).getD 1 []))) := by
  constructor
  · intro hcond
    simp only [sourceHandleConn]
    rw [if_pos hcond]
  · intro hcond
    simp only [sourceHandleConn]
    rw [if_neg hcond]
    cases hres : pub ((splitOnChar ' ' (trimSpace line)).getD 2 [])
        (usernameFromHeaders hs) ((splitOnChar ' ' (trimSpace line)).getD 1 []) with
    | ok u => rfl
    | error e => cases e <;> rfl

theorem sourceHandleConn_witness :
    sourceHandleConn (gs "SOURCE pw MNT") []
        (fun _ _ _ => .error .conflict) =
      (gs "ERROR - Mount Point Already In Use\r\n", false) := by
  have h := (sourceHandleConn_responses (gs "SOURCE pw MNT") []
    (fun _ _ _ => .error .conflict)).2 (by decide)
  rw [h]
  rfl

/-- C7: filtering with the empty query returns the table unchanged with no
error; filtering with `?` returns the table unchanged (with the parse error
the empty condition produces); and any query that fails to parse returns
the original table with that error, never a partially filtered one. -/
theorem filterTable_no_effect (st : Sourcetable) (q : GoStr)
    (conds : List Condition) (e : GoStr) :
    filterTable st [] = (st, none) ∧
    filterTable st (gs "?") = (st, some (gs "invalid condition format: ")) ∧
    (parseQuery q = (conds, some e) → filterTable st q = (st, some e)) := by
  refine ⟨rfl, ?_, ?_⟩
  · unfold filterTable
    rw [if_neg (by decide)]
    have hq : parseQuery (gs "?") = ([], some (gs "invalid condition format: ")) := by
      decide
    rw [hq]
  · intro hq
    unfold filterTable
    by_cases hq0 : q = []
    · subst hq0
      have : parseQuery ([] : GoStr) = ([], none) := rfl
      rw [this] at hq
      simp at hq
    · rw [if_neg hq0, hq]

theorem filterTable_witness :
    filterTable ⟨[], [], []⟩ (gs "?x") =
      (⟨[], [], []⟩, some (gs "invalid condition format: x")) := by
  have h := (filterTable_no_effect ⟨[], [], []⟩ (gs "?x") []
    (gs "invalid condition format: x")).2.2 (by decide)
  exact h

/-- C9 (helper): the behaviour of the boolean field parser. -/
theorem goParseBoolAt_spec (parts : List GoStr) (i : Nat) (fv f : GoStr) :
    (i < parts.length →
      ((goParseBoolAt parts i fv f).1 = false ↔ parts.getD i [] = fv)) ∧
    (parts.length ≤ i → goParseBoolAt parts i fv f = (false, [errParsing f])) := by
  constructor
  · intro hlt
    obtain ⟨v, hv⟩ : ∃ v, parts.get? i = some v :=
      ⟨parts.get ⟨i, hlt⟩, List.get?_eq_get hlt⟩
    unfold goParseBoolAt
    rw [hv]
    have hgetD : parts.getD i [] = v := by
      rw [List.getD_eq_get?, hv]
      rfl
    rw [hgetD]
    by_cases hveq : v = fv
    · simp [hveq]
    · simp [hveq]
  · intro hle
    unfold goParseBoolAt
    rw [List.get?_eq_none.2 hle]

set_option maxHeartbeats 2000000 in
/-- C9: in a parsed stream record, `NMEA`/`Solution` are false exactly when
the field reads `0`, `Fee` is false exactly when it reads `N` — every other
present value, the empty string included, parses as true — and a record too
short for the field defaults it to false with a `parsing nmea` warning. -/
theorem ParseStreamEntry_bool_fields (s : GoStr) :
    (11 < (splitOnChar ';' s).length →
      (((ParseStreamEntry s).1.NMEA = false) ↔
        (splitOnChar ';' s).getD 11 [] = gs "0")) ∧
    (12 < (splitOnChar ';' s).length →
      (((ParseStreamEntry s).1.Solution = false) ↔
        (splitOnChar ';' s).getD 12 [] = gs "0")) ∧
    (16 < (splitOnChar ';' s).length →
      (((ParseStreamEntry s).1.Fee = false) ↔
        (splitOnChar ';' s).getD 16 [] = gs "N")) ∧
    ((splitOnChar ';' s).length ≤ 11 →
      (ParseStreamEntry s).1.NMEA = false ∧
        errParsing (gs "nmea") ∈ (ParseStreamEntry s).2) := by
  have hNMEA : (ParseStreamEntry s).1.NMEA =
      (goParseBoolAt (splitOnChar ';' s) 11 (gs "0") (gs "nmea")).1 := rfl
  have hSol : (ParseStreamEntry s).1.Solution =
      (goParseBoolAt (splitOnChar ';' s) 12 (gs "0") (gs "solution")).1 := rfl
  have hFee : (ParseStreamEntry s).1.Fee =
      (goParseBoolAt (splitOnChar ';' s) 16 (gs "N") (gs "fee")).1 := rfl
  refine ⟨?_, ?_, ?_, ?_⟩
  · intro hlt
    rw [hNMEA]
    exact (goParseBoolAt_spec (splitOnChar ';' s) 11 (gs "0") (gs "nmea")).1 hlt
  · intro hlt
    rw [hSol]
    exact (goParseBoolAt_spec (splitOnChar ';' s) 12 (gs "0") (gs "solution")).1 hlt
  · intro hlt
    rw [hFee]
    exact (goParseBoolAt_spec (splitOnChar ';' s) 16 (gs "N") (gs "fee")).1 hlt
  · intro hle
    have hb := (goParseBoolAt_spec (splitOnChar ';' s) 11 (gs "0") (gs "nmea")).2 hle
    constructor
    · rw [hNMEA, hb]
    · have hmem : errParsing (gs "nmea") ∈
          (goParseBoolAt (splitOnChar ';' s) 11 (gs "0") (gs "nmea")).2 := by
        rw [hb]
        simp
      have hdecomp : (ParseStreamEntry s).2 =
          (goParseStringAt (splitOnChar ';' s) 1 (gs "name")).2 ++
          (goParseStringAt (splitOnChar ';' s) 2 (gs "identifier")).2 ++
          (goParseStringAt (splitOnChar ';' s) 3 (gs "format")).2 ++
          (goParseStringAt (splitOnChar ';' s) 4 (gs "format details")).2 ++
          (goParseStringAt (splitOnChar ';' s) 5 (gs "carrier")).2 ++
          (goParseStringAt (splitOnChar ';' s) 6 (gs "nav system")).2 ++
          (goParseStringAt (splitOnChar ';' s) 7 (gs "network")).2 ++
          (goParseStringAt (splitOnChar ';' s) 8 (gs "country code")).2 ++
          (goParseFloatAt (splitOnChar ';' s) 9 (gs "latitude")).2 ++
          (goParseFloatAt (splitOnChar ';' s) 10 (gs "logitude")).2 ++
          (goParseBoolAt (splitOnChar ';' s) 11 (gs "0") (gs "nmea")).2 ++
          (goParseBoolAt (splitOnChar ';' s) 12 (gs "0") (gs "solution")).2 ++
          (goParseStringAt (splitOnChar ';' s) 13 (gs "generator")).2 ++
          (goParseStringAt (splitOnChar ';' s) 14 (gs "compression")).2 ++
          (goParseStringAt (splitOnChar ';' s) 15 (gs "authentication")).2 ++
          (goParseBoolAt (splitOnChar ';' s) 16 (gs "N") (gs "fee")).2 ++
          (goParseIntAt (splitOnChar ';' s) 17 (gs "bitrate")).2 ++
          (goParseStringAt (splitOnChar ';' s) 18 (gs "misc")).2 := by
        simp only [ParseStreamEntry]
      rw [hdecomp]
      simp only [List.mem_append]
      exact Or.inl (Or.inl (Or.inl (Or.inl (Or.inl (Or.inl (Or.inl (Or.inr hmem)))))))

theorem ParseStreamEntry_bool_fields_witness :
    ((ParseStreamEntry (gs "STR;M;;;;;;;;1.0;2.0;2;0;;;;Y;0;x")).1.NMEA = false ↔
      (splitOnChar ';' (gs "STR;M;;;;;;;;1.0;2.0;2;0;;;;Y;0;x")).getD 11 [] = gs "0") ∧
    ((ParseStreamEntry (gs "STR;M;;;;;;;;1.0;2.0;2;0;;;;Y;0;x")).1.Solution = false ↔
      (splitOnChar ';' (gs "STR;M;;;;;;;;1.0;2.0;2;0;;;;Y;0;x")).getD 12 [] = gs "0") ∧
    ((ParseStreamEntry (gs "STR;M;;;;;;;;1.0;2.0;2;0;;;;Y;0;x")).1.Fee = false ↔
      (splitOnChar ';' (gs "STR;M;;;;;;;;1.0;2.0;2;0;;;;Y;0;x")).getD 16 [] = gs "N") :=
  ⟨(ParseStreamEntry_bool_fields (gs "STR;M;;;;;;;;1.0;2.0;2;0;;;;Y;0;x")).1 (by decide),
   (ParseStreamEntry_bool_fields (gs "STR;M;;;;;;;;1.0;2.0;2;0;;;;Y;0;x")).2.1 (by decide),
   (ParseStreamEntry_bool_fields (gs "STR;M;;;;;;;;1.0;2.0;2;0;;;;Y;0;x")).2.2.1 (by decide)⟩

theorem subIndex_single_mem (c : Char) (s : GoStr) (i : Nat)
    (h : subIndex [c] s = some i) : c ∈ s := by
  induction s generalizing i with
  | nil => simp [subIndex] at h
  | cons a rest ih =>
    rw [subIndex] at h
    by_cases hpre : List.isPrefixOf [c] (a :: rest) = true
    · have : c = a := by simpa [List.isPrefixOf] using hpre
      simp [this]
    · rw [if_neg hpre] at h
      cases hsub : subIndex [c] rest with
      | none => rw [hsub] at h; simp at h
      | some j => exact List.mem_cons_of_mem _ (ih j hsub)

theorem splitN2_some_mem (c : Char) (s : GoStr) (p : GoStr × GoStr)
    (h : splitN2 c s = some p) : c ∈ s := by
  unfold splitN2 at h
  cases hsub : subIndex [c] s with
  | none => rw [hsub] at h; simp at h
  | some i => exact subIndex_single_mem c s i hsub

/-- C10: the v1 SOURCE server passes a non-empty username to the service
only when an `Authorization` header is present, carries the `Basic ` scheme,
its payload decodes as standard base64, and the decoded text contains a
colon (the username being the part before the first colon); whenever the
header is absent, the scheme is not Basic, the base64 is invalid, or the
colon is missing, the username is the empty string — and in all cases an
admissible SOURCE request line is submitted to the service with the
password taken from the request line's second token. -/
theorem v1source_username_spec (hs : List (GoStr × GoStr)) (line : GoStr)
    (pub : GoStr → GoStr → GoStr → Except NtripError Unit)
    (hwf : ¬ ((splitOnChar ' ' (trimSpace line)).length < 3 ∨
        (splitOnChar ' ' (trimSpace line)).getD 0 [] ≠ gs "SOURCE")) :
    (usernameFromHeaders hs ≠ [] →
      ∃ a, lookupHeader (gs "Authorization") hs = some a ∧
        (gs "Basic ").isPrefixOf a = true ∧
        ∃ d, base64DecodeGo (a.drop 6) = some d ∧ ':' ∈ d ∧
          ∃ v, splitN2 ':' d = some (usernameFromHeaders hs, v)) ∧
    (lookupHeader (gs "Authorization") hs = none →
      usernameFromHeaders hs = []) ∧
    (∀ a, lookupHeader (gs "Authorization") hs = some a →
      ((gs "Basic ").isPrefixOf a = false → usernameFromHeaders hs = []) ∧
      (base64DecodeGo (a.drop 6) = none → usernameFromHeaders hs = []) ∧
      (∀ d, base64DecodeGo (a.drop 6) = some d → splitN2 ':' d = none →
        usernameFromHeaders hs = [])) ∧
    sourceHandleConn line hs pub =
      sourceResponseFor (pub ((splitOnChar ' ' (trimSpace line)).getD 2 [])
        (usernameFromHeaders hs)
        ((splitOnChar ' ' (trimSpace line)).getD 1 [])) := by
  have hmain : sourceHandleConn line hs pub =
      sourceResponseFor (pub ((splitOnChar ' ' (trimSpace line)).getD 2 [])
        (usernameFromHeaders hs)
        ((splitOnChar ' ' (trimSpace line)).getD 1 [])) := by
    simp only [sourceHandleConn]
    rw [if_neg hwf]
    cases hres : pub ((splitOnChar ' ' (trimSpace line)).getD 2 [])
        (usernameFromHeaders hs)
        ((splitOnChar ' ' (trimSpace line)).getD 1 []) with
    | ok u => rfl
    | error e => cases e <;> rfl
  cases hl : lookupHeader (gs "Authorization") hs with
  | none =>
    have hemp : usernameFromHeaders hs = [] := by
      unfold usernameFromHeaders; rw [hl]
    refine ⟨fun hne => absurd hemp hne, fun _ => hemp, ?_, hmain⟩
    intro a ha
    exact Option.noConfusion ha
  | some a =>
    have husr : usernameFromHeaders hs = extractUsername a := by
      unfold usernameFromHeaders; rw [hl]
    have hns : some a = none → usernameFromHeaders hs = [] := fun h0 =>
      Option.noConfusion h0
    by_cases hpre : (gs "Basic ").isPrefixOf a = true
    · cases hdec : base64DecodeGo (a.drop 6) with
      | none =>
        have hx : extractUsername a = [] := by
          simp [extractUsername, hpre, hdec]
        have hemp : usernameFromHeaders hs = [] := husr.trans hx
        refine ⟨fun hne => absurd hemp hne, hns, ?_, hmain⟩
        intro a' ha'
        exact ⟨fun _ => hemp, fun _ => hemp, fun _ _ _ => hemp⟩
      | some d =>
        cases hsp : splitN2 ':' d with
        | none =>
          have hx : extractUsername a = [] := by
            simp [extractUsername, hpre, hdec, hsp]
          have hemp : usernameFromHeaders hs = [] := husr.trans hx
          refine ⟨fun hne => absurd hemp hne, hns, ?_, hmain⟩
          intro a' ha'
          exact ⟨fun _ => hemp, fun _ => hemp, fun _ _ _ => hemp⟩
        | some uv =>
          obtain ⟨u, v⟩ := uv
          have hx : extractUsername a = u := by
            simp [extractUsername, hpre, hdec, hsp]
          refine ⟨?_, hns, ?_, hmain⟩
          · intro _
            refine ⟨a, rfl, hpre, d, hdec,
              splitN2_some_mem ':' d (u, v) hsp, v, ?_⟩
            rw [husr, hx, hsp]
          · intro a' ha'
            have haa : a' = a := (Option.some.inj ha').symm
            subst haa
            refine ⟨fun hf => absurd hpre (by rw [hf]; exact Bool.false_ne_true),
              fun hn => Option.noConfusion (hn.symm.trans hdec), ?_⟩
            intro d' hd' hn
            have hdd : d' = d := Option.some.inj (hd'.symm.trans hdec)
            subst hdd
            exact Option.noConfusion (hn.symm.trans hsp)
    · have hx : extractUsername a = [] := by
        unfold extractUsername
        rw [if_pos (by simp [hpre])]
      have hemp : usernameFromHeaders hs = [] := husr.trans hx
      refine ⟨fun hne => absurd hemp hne, hns, ?_, hmain⟩
      intro a' ha'
      exact ⟨fun _ => hemp, fun _ => hemp, fun _ _ _ => hemp⟩

theorem v1source_username_spec_witness :
    usernameFromHeaders [(gs "Authorization", gs "Basic dXNlcjpwYXNz")] ≠ [] ∧
    (∃ a, lookupHeader (gs "Authorization")
          [(gs "Authorization", gs "Basic dXNlcjpwYXNz")] = some a ∧
        (gs "Basic ").isPrefixOf a = true ∧
        ∃ d, base64DecodeGo (a.drop 6) = some d ∧ ':' ∈ d ∧
          ∃ v, splitN2 ':' d = some
            (usernameFromHeaders [(gs "Authorization", gs "Basic dXNlcjpwYXNz")],
              v)) ∧
    sourceHandleConn (gs "SOURCE pw MNT")
        [(gs "Authorization", gs "Basic dXNlcjpwYXNz")]
        (fun _ _ _ => Except.ok ()) = (gs "OK\r\n", true) := by
  have h := v1source_username_spec
    [(gs "Authorization", gs "Basic dXNlcjpwYXNz")] (gs "SOURCE pw MNT")
    (fun _ _ _ => Except.ok ()) (by decide)
  exact ⟨by decide, h.1 (by decide), h.2.2.2.trans (by decide)⟩

theorem subIndex_some_subset (pat : GoStr) :
    ∀ (s : GoStr) (i : Nat), subIndex pat s = some i → ∀ c ∈ pat, c ∈ s := by
  intro s
  induction s with
  | nil =>
    intro i h c hc
    rw [subIndex] at h
    by_cases hp : pat = []
    · subst hp; simp at hc
    · rw [if_neg hp] at h; cases h
  | cons a rest ih =>
    intro i h c hc
    rw [subIndex] at h
    by_cases hp : pat.isPrefixOf (a :: rest) = true
    · have hpre : pat <+: (a :: rest) := List.isPrefixOf_iff_prefix.mp hp
      exact hpre.sublist.subset hc
    · rw [if_neg hp] at h
      cases hsub : subIndex pat rest with
      | none => rw [hsub] at h; cases h
      | some j => exact List.mem_cons_of_mem a (ih j hsub c hc)

theorem subIndex_none_of_not_mem (pat s : GoStr) (c : Char) (hc : c ∈ pat)
    (hs : c ∉ s) : subIndex pat s = none := by
  cases h : subIndex pat s with
  | none => rfl
  | some i => exact absurd (subIndex_some_subset pat s i h c hc) hs

theorem subIndex_single_isSome (c : Char) (s : GoStr) (h : c ∈ s) :
    (subIndex [c] s).isSome = true := by
  induction s with
  | nil => simp at h
  | cons a rest ih =>
    rw [subIndex]
    by_cases hp : List.isPrefixOf [c] (a :: rest) = true
    · rw [if_pos hp]; rfl
    · rw [if_neg hp]
      have h1 : c ∈ rest := by
        rcases List.mem_cons.mp h with h1 | h1
        · exfalso
          subst h1
          exact hp (List.isPrefixOf_iff_prefix.mpr ⟨rest, rfl⟩)
        · exact h1
      have h2 := ih h1
      cases hsub : subIndex [c] rest with
      | none => rw [hsub] at h2; simp at h2
      | some j => simp

theorem subIndex_prefix_at (p0 : Char) (pt v : GoStr) :
    ∀ f : GoStr, p0 ∉ f →
      subIndex (p0 :: pt) (f ++ (p0 :: pt) ++ v) = some f.length := by
  intro f
  induction f with
  | nil =>
    intro _
    show subIndex (p0 :: pt) (p0 :: (pt ++ v)) = some 0
    rw [subIndex, if_pos]
    exact List.isPrefixOf_iff_prefix.mpr ⟨v, by simp⟩
  | cons a f' ih =>
    intro hnf
    have hf' : p0 ∉ f' := fun hm => hnf (List.mem_cons_of_mem a hm)
    show subIndex (p0 :: pt) (a :: (f' ++ (p0 :: pt) ++ v)) =
      some (f'.length + 1)
    rw [subIndex, if_neg, ih hf']
    · rfl
    · intro hp
      rcases List.isPrefixOf_iff_prefix.mp hp with ⟨t, ht⟩
      simp only [List.cons_append] at ht
      injection ht with h1 _
      exact hnf (by rw [h1]; exact List.mem_cons_self a f')

theorem findOpAux_cons_none (op : GoStr) (rest : List GoStr) (part : GoStr)
    (h : subIndex op part = none) :
    findOpAux (op :: rest) part = findOpAux rest part := by
  rw [findOpAux, h]

theorem findOpAux_cons_some (op : GoStr) (rest : List GoStr) (part : GoStr)
    (i : Nat) (h : subIndex op part = some i) :
    findOpAux (op :: rest) part = some (op, i) := by
  rw [findOpAux, h]

theorem wfExplicit_props (c : Condition) (h : wfExplicit c = true) :
    c.operator ∈ opsList ∧
    (∀ ch ∈ c.field, ¬ (ch ∈ opChars ∨ ch = '&' ∨ ch = ';')) ∧
    (∀ ch ∈ c.value, ¬ (ch ∈ opChars ∨ ch = '&' ∨ ch = ';')) := by
  simp only [wfExplicit, Bool.and_eq_true, decide_eq_true_eq,
    List.all_eq_true] at h
  refine ⟨h.1.1, fun ch hm => ?_, fun ch hm => ?_⟩
  · have := h.1.2 ch hm
    simpa using this
  · have := h.2 ch hm
    simpa using this

theorem opsList_cases (op : GoStr) (h : op ∈ opsList) :
    op = gs "!=" ∨ op = gs ">=" ∨ op = gs "<=" ∨ op = gs "=" ∨
    op = gs ">" ∨ op = gs "<" ∨ op = gs "~" := by
  simpa [opsList] using h

theorem findOp_explicit (c : Condition) (h : wfExplicit c = true) :
    findOp (explicitPart c) = some (c.operator, c.field.length) := by
  obtain ⟨hopmem, hmf, hmv⟩ := wfExplicit_props c h
  have hnp : ∀ ch, ch ∈ opChars → ch ∉ c.operator → ch ∉ explicitPart c := by
    intro ch hopc hnop hmem
    rw [explicitPart] at hmem
    rcases List.mem_append.mp hmem with hm | hm
    · rcases List.mem_append.mp hm with hm | hm
      · exact hmf ch hm (Or.inl hopc)
      · exact hnop hm
    · exact hmv ch hm (Or.inl hopc)
  have hnf : ∀ ch, ch ∈ opChars → ch ∉ c.field :=
    fun ch hc hm => hmf ch hm (Or.inl hc)
  rcases opsList_cases c.operator hopmem with
    hcase | hcase | hcase | hcase | hcase | hcase | hcase
  · have hs : subIndex (gs "!=") (explicitPart c) = some c.field.length := by
      rw [explicitPart, hcase]
      exact subIndex_prefix_at '!' ['='] c.value c.field (hnf '!' (by decide))
    rw [hcase, findOp, opsList, findOpAux_cons_some _ _ _ _ hs]
  · have e1 : subIndex (gs "!=") (explicitPart c) = none :=
      subIndex_none_of_not_mem _ _ '!' (by decide)
        (hnp '!' (by decide) (by rw [hcase]; decide))
    have hs : subIndex (gs ">=") (explicitPart c) = some c.field.length := by
      rw [explicitPart, hcase]
      exact subIndex_prefix_at '>' ['='] c.value c.field (hnf '>' (by decide))
    rw [hcase, findOp, opsList, findOpAux_cons_none _ _ _ e1,
      findOpAux_cons_some _ _ _ _ hs]
  · have e1 : subIndex (gs "!=") (explicitPart c) = none :=
      subIndex_none_of_not_mem _ _ '!' (by decide)
        (hnp '!' (by decide) (by rw [hcase]; decide))
    have e2 : subIndex (gs ">=") (explicitPart c) = none :=
      subIndex_none_of_not_mem _ _ '>' (by decide)
        (hnp '>' (by decide) (by rw [hcase]; decide))
    have hs : subIndex (gs "<=") (explicitPart c) = some c.field.length := by
      rw [explicitPart, hcase]
      exact subIndex_prefix_at '<' ['='] c.value c.field (hnf '<' (by decide))
    rw [hcase, findOp, opsList, findOpAux_cons_none _ _ _ e1,
      findOpAux_cons_none _ _ _ e2, findOpAux_cons_some _ _ _ _ hs]
  · have e1 : subIndex (gs "!=") (explicitPart c) = none :=
      subIndex_none_of_not_mem _ _ '!' (by decide)
        (hnp '!' (by decide) (by rw [hcase]; decide))
    have e2 : subIndex (gs ">=") (explicitPart c) = none :=
      subIndex_none_of_not_mem _ _ '>' (by decide)
        (hnp '>' (by decide) (by rw [hcase]; decide))
    have e3 : subIndex (gs "<=") (explicitPart c) = none :=
      subIndex_none_of_not_mem _ _ '<' (by decide)
        (hnp '<' (by decide) (by rw [hcase]; decide))
    have hs : subIndex (gs "=") (explicitPart c) = some c.field.length := by
      rw [explicitPart, hcase]
      exact subIndex_prefix_at '=' [] c.value c.field (hnf '=' (by decide))
    rw [hcase, findOp, opsList, findOpAux_cons_none _ _ _ e1,
      findOpAux_cons_none _ _ _ e2, findOpAux_cons_none _ _ _ e3,
      findOpAux_cons_some _ _ _ _ hs]
  · have e1 : subIndex (gs "!=") (explicitPart c) = none :=
      subIndex_none_of_not_mem _ _ '!' (by decide)
        (hnp '!' (by decide) (by rw [hcase]; decide))
    have e2 : subIndex (gs ">=") (explicitPart c) = none :=
      subIndex_none_of_not_mem _ _ '=' (by decide)
        (hnp '=' (by decide) (by rw [hcase]; decide))
    have e3 : subIndex (gs "<=") (explicitPart c) = none :=
      subIndex_none_of_not_mem _ _ '<' (by decide)
        (hnp '<' (by decide) (by rw [hcase]; decide))
    have e4 : subIndex (gs "=") (explicitPart c) = none :=
      subIndex_none_of_not_mem _ _ '=' (by decide)
        (hnp '=' (by decide) (by rw [hcase]; decide))
    have hs : subIndex (gs ">") (explicitPart c) = some c.field.length := by
      rw [explicitPart, hcase]
      exact subIndex_prefix_at '>' [] c.value c.field (hnf '>' (by decide))
    rw [hcase, findOp, opsList, findOpAux_cons_none _ _ _ e1,
      findOpAux_cons_none _ _ _ e2, findOpAux_cons_none _ _ _ e3,
      findOpAux_cons_none _ _ _ e4, findOpAux_cons_some _ _ _ _ hs]
  · have e1 : subIndex (gs "!=") (explicitPart c) = none :=
      subIndex_none_of_not_mem _ _ '!' (by decide)
        (hnp '!' (by decide) (by rw [hcase]; decide))
    have e2 : subIndex (gs ">=") (explicitPart c) = none :=
      subIndex_none_of_not_mem _ _ '>' (by decide)
        (hnp '>' (by decide) (by rw [hcase]; decide))
    have e3 : subIndex (gs "<=") (explicitPart c) = none :=
      subIndex_none_of_not_mem _ _ '=' (by decide)
        (hnp '=' (by decide) (by rw [hcase]; decide))
    have e4 : subIndex (gs "=") (explicitPart c) = none :=
      subIndex_none_of_not_mem _ _ '=' (by decide)
        (hnp '=' (by decide) (by rw [hcase]; decide))
    have e5 : subIndex (gs ">") (explicitPart c) = none :=
      subIndex_none_of_not_mem _ _ '>' (by decide)
        (hnp '>' (by decide) (by rw [hcase]; decide))
    have hs : subIndex (gs "<") (explicitPart c) = some c.field.length := by
      rw [explicitPart, hcase]
      exact subIndex_prefix_at '<' [] c.value c.field (hnf '<' (by decide))
    rw [hcase, findOp, opsList, findOpAux_cons_none _ _ _ e1,
      findOpAux_cons_none _ _ _ e2, findOpAux_cons_none _ _ _ e3,
      findOpAux_cons_none _ _ _ e4, findOpAux_cons_none _ _ _ e5,
      findOpAux_cons_some _ _ _ _ hs]
  · have e1 : subIndex (gs "!=") (explicitPart c) = none :=
      subIndex_none_of_not_mem _ _ '!' (by decide)
        (hnp '!' (by decide) (by rw [hcase]; decide))
    have e2 : subIndex (gs ">=") (explicitPart c) = none :=
      subIndex_none_of_not_mem _ _ '>' (by decide)
        (hnp '>' (by decide) (by rw [hcase]; decide))
    have e3 : subIndex (gs "<=") (explicitPart c) = none :=
      subIndex_none_of_not_mem _ _ '<' (by decide)
        (hnp '<' (by decide) (by rw [hcase]; decide))
    have e4 : subIndex (gs "=") (explicitPart c) = none :=
      subIndex_none_of_not_mem _ _ '=' (by decide)
        (hnp '=' (by decide) (by rw [hcase]; decide))
    have e5 : subIndex (gs ">") (explicitPart c) = none :=
      subIndex_none_of_not_mem _ _ '>' (by decide)
        (hnp '>' (by decide) (by rw [hcase]; decide))
    have e6 : subIndex (gs "<") (explicitPart c) = none :=
      subIndex_none_of_not_mem _ _ '<' (by decide)
        (hnp '<' (by decide) (by rw [hcase]; decide))
    have hs : subIndex (gs "~") (explicitPart c) = some c.field.length := by
      rw [explicitPart, hcase]
      exact subIndex_prefix_at '~' [] c.value c.field (hnf '~' (by decide))
    rw [hcase, findOp, opsList, findOpAux_cons_none _ _ _ e1,
      findOpAux_cons_none _ _ _ e2, findOpAux_cons_none _ _ _ e3,
      findOpAux_cons_none _ _ _ e4, findOpAux_cons_none _ _ _ e5,
      findOpAux_cons_none _ _ _ e6, findOpAux_cons_some _ _ _ _ hs]

theorem opsList_no_amp_semi (op : GoStr) (h : op ∈ opsList) :
    '&' ∉ op ∧ ';' ∉ op := by
  rcases opsList_cases op h with h1 | h1 | h1 | h1 | h1 | h1 | h1 <;>
    rw [h1] <;> exact ⟨by decide, by decide⟩

theorem explicitPart_no_semi (c : Condition) (h : wfExplicit c = true) :
    ';' ∉ explicitPart c := by
  obtain ⟨hopmem, hmf, hmv⟩ := wfExplicit_props c h
  intro hm
  rw [explicitPart] at hm
  rcases List.mem_append.mp hm with hm | hm
  · rcases List.mem_append.mp hm with hm | hm
    · exact hmf ';' hm (Or.inr (Or.inr rfl))
    · exact (opsList_no_amp_semi c.operator hopmem).2 hm
  · exact hmv ';' hm (Or.inr (Or.inr rfl))

theorem explicitPart_no_amp (c : Condition) (h : wfExplicit c = true) :
    '&' ∉ explicitPart c := by
  obtain ⟨hopmem, hmf, hmv⟩ := wfExplicit_props c h
  intro hm
  rw [explicitPart] at hm
  rcases List.mem_append.mp hm with hm | hm
  · rcases List.mem_append.mp hm with hm | hm
    · exact hmf '&' hm (Or.inr (Or.inl rfl))
    · exact (opsList_no_amp_semi c.operator hopmem).1 hm
  · exact hmv '&' hm (Or.inr (Or.inl rfl))

theorem parseQueryLoop_explicit_step (c : Condition) (rest : List GoStr)
    (b : Bool) (acc : List Condition) (h : wfExplicit c = true) :
    parseQueryLoop (explicitPart c :: rest) b acc =
      parseQueryLoop rest false (acc ++ [c]) := by
  have hcont : containsStr (explicitPart c) (gs ";") = false := by
    unfold containsStr
    rw [subIndex_none_of_not_mem (gs ";") _ ';' (by decide)
      (explicitPart_no_semi c h)]
    rfl
  have htake : (explicitPart c).take c.field.length = c.field := by
    rw [explicitPart, List.append_assoc]
    exact List.take_left c.field (c.operator ++ c.value)
  have hdrop : (explicitPart c).drop (c.field.length + c.operator.length) =
      c.value := by
    rw [explicitPart,
      show c.field.length + c.operator.length = (c.field ++ c.operator).length
        from (List.length_append _ _).symm]
    exact List.drop_left (c.field ++ c.operator) c.value
  rw [parseQueryLoop,
    if_neg (fun hc => absurd hc.2 (by rw [hcont]; exact Bool.false_ne_true)),
    findOp_explicit c h]
  show parseQueryLoop rest false
      (acc ++ [⟨(explicitPart c).take c.field.length, c.operator,
        (explicitPart c).drop (c.field.length + c.operator.length)⟩]) =
    parseQueryLoop rest false (acc ++ [c])
  rw [htake, hdrop]

theorem parseQueryLoop_explicit_all :
    ∀ (cs : List Condition) (b : Bool) (acc : List Condition),
      (∀ c ∈ cs, wfExplicit c = true) →
      parseQueryLoop (cs.map explicitPart) b acc = (acc ++ cs, none) := by
  intro cs
  induction cs with
  | nil => intro b acc _; simp [parseQueryLoop]
  | cons c cs' ih =>
    intro b acc h
    rw [List.map_cons, parseQueryLoop_explicit_step c _ b acc (h c (by simp)),
      ih false (acc ++ [c]) (fun d hd => h d (List.mem_cons_of_mem c hd))]
    simp

theorem posConditions_enumFrom (ty : GoStr) :
    ∀ (vs : List GoStr) (k : Nat),
      (∀ p ∈ vs.enumFrom k, p.2 ≠ [] → getFieldNameByIndex ty p.1 ≠ []) →
      posConditions ty vs k =
        (vs.enumFrom k).filterMap (fun p =>
          if p.2 = [] then none
          else some ⟨getFieldNameByIndex ty p.1, gs "=", p.2⟩) := by
  intro vs
  induction vs with
  | nil => intro k _; rfl
  | cons v rest ih =>
    intro k h
    have h' : ∀ p ∈ rest.enumFrom (k + 1), p.2 ≠ [] →
        getFieldNameByIndex ty p.1 ≠ [] :=
      fun p hp => h p (by rw [List.enumFrom_cons]; exact List.mem_cons_of_mem _ hp)
    by_cases hv : v = []
    · rw [posConditions, if_pos hv, List.enumFrom_cons, ih (k + 1) h']
      simp [hv]
    · have hfield : getFieldNameByIndex ty k ≠ [] :=
        h (k, v) (by rw [List.enumFrom_cons]; exact List.mem_cons_self _ _) hv
      rw [posConditions, if_neg hv, if_neg hfield, List.enumFrom_cons,
        ih (k + 1) h']
      simp [hv]

theorem posConditions_expected (ty : GoStr) (vs : List GoStr)
    (h : ∀ p ∈ vs.enum, p.2 ≠ [] → getFieldNameByIndex ty p.1 ≠ []) :
    posConditions ty vs 0 = expectedPositional ty vs := by
  have he : vs.enum = vs.enumFrom 0 := rfl
  unfold expectedPositional
  rw [he]
  exact posConditions_enumFrom ty vs 0 (by rw [← he]; exact h)

theorem parseQueryLoop_positional_step (ty : GoStr) (vs : List GoStr)
    (rest : List GoStr) (acc : List Condition)
    (hty : ty ≠ []) (htysemi : ';' ∉ ty) (hvs : vs ≠ [])
    (hv : ∀ v ∈ vs, ';' ∉ v) :
    parseQueryLoop (joinSep (gs ";") (ty :: vs) :: rest) true acc =
      parseQueryLoop rest false (acc ++ posConditions ty vs 0) := by
  have hsplit : splitOnChar ';' (joinSep (gs ";") (ty :: vs)) = ty :: vs := by
    refine splitOnChar_joinSep ';' (ty :: vs) (by simp) ?_
    intro p hp
    rcases List.mem_cons.mp hp with h1 | h1
    · rw [h1]; exact htysemi
    · exact hv p h1
  have hmem : ';' ∈ joinSep (gs ";") (ty :: vs) := by
    rw [joinSep_cons_ne_nil _ _ _ hvs]
    exact List.mem_append.mpr (Or.inl (List.mem_append.mpr (Or.inr (by decide))))
  have hcontains : containsStr (joinSep (gs ";") (ty :: vs)) (gs ";") = true := by
    unfold containsStr
    exact subIndex_single_isSome ';' _ hmem
  rw [parseQueryLoop, if_pos ⟨rfl, hcontains⟩, hsplit]
  show (if ty = [] then parseQueryLoop rest false acc
    else parseQueryLoop rest false (acc ++ posConditions ty vs 0)) =
    parseQueryLoop rest false (acc ++ posConditions ty vs 0)
  rw [if_neg hty]

theorem parseQuery_query (body : GoStr) :
    parseQuery ('?' :: body) = parseQueryLoop (splitOnChar '&' body) true [] := by
  rw [parseQuery, if_neg]
  · rfl
  · intro hc
    rcases hc with h1 | h1
    · cases h1
    · exact h1 (List.isPrefixOf_iff_prefix.mpr ⟨body, rfl⟩)

/-- C8 (amended): the positional NTRIP form is recognised only when it is
the FIRST conjunct of the query. A query `?TY;v1;…&c1&c2&…` whose head is a
positional form over a known entry type and whose remaining conjuncts are
explicit `Field OP Value` conditions parses without error into the expanded
positional equalities followed by the explicit conditions; and a query made
solely of explicit conjuncts parses to exactly those conditions. (The
original claim — a positional conjunct at ANY position — is false, see the
counterexample.) -/
theorem parseQuery_conjunction_forms (ty : GoStr) (vs : List GoStr)
    (cs : List Condition)
    (hty : ty = gs "STR" ∨ ty = gs "CAS" ∨ ty = gs "NET")
    (hvs : vs ≠ [])
    (hv : ∀ v ∈ vs, ';' ∉ v ∧ '&' ∉ v)
    (hfield : ∀ p ∈ vs.enum, p.2 ≠ [] → getFieldNameByIndex ty p.1 ≠ [])
    (hcs : ∀ c ∈ cs, wfExplicit c = true) :
    parseQuery (gs "?" ++ joinSep (gs "&")
        (joinSep (gs ";") (ty :: vs) :: cs.map explicitPart)) =
      (expectedPositional ty vs ++ cs, none) ∧
    (cs ≠ [] →
      parseQuery (gs "?" ++ joinSep (gs "&") (cs.map explicitPart)) =
        (cs, none)) := by
  have htyne : ty ≠ [] := by
    rcases hty with h1 | h1 | h1 <;> rw [h1] <;> decide
  have htysemi : ';' ∉ ty := by
    rcases hty with h1 | h1 | h1 <;> rw [h1] <;> decide
  have htyamp : '&' ∉ ty := by
    rcases hty with h1 | h1 | h1 <;> rw [h1] <;> decide
  have hposamp : '&' ∉ joinSep (gs ";") (ty :: vs) := by
    intro hm
    rcases mem_joinSep (gs ";") (ty :: vs) '&' hm with h1 | ⟨p, hp, hcp⟩
    · exact absurd h1 (by decide)
    · rcases List.mem_cons.mp hp with h2 | h2
      · rw [h2] at hcp; exact htyamp hcp
      · exact (hv p h2).2 hcp
  have hmapamp : ∀ p ∈ cs.map explicitPart, '&' ∉ p := by
    intro p hp
    rcases List.mem_map.mp hp with ⟨c, hc, hce⟩
    rw [← hce]
    exact explicitPart_no_amp c (hcs c hc)
  constructor
  · have hpartsamp : ∀ p ∈ joinSep (gs ";") (ty :: vs) :: cs.map explicitPart,
        '&' ∉ p := by
      intro p hp
      rcases List.mem_cons.mp hp with h1 | h1
      · rw [h1]; exact hposamp
      · exact hmapamp p h1
    have hsplit : splitOnChar '&' (joinSep (gs "&")
        (joinSep (gs ";") (ty :: vs) :: cs.map explicitPart)) =
        joinSep (gs ";") (ty :: vs) :: cs.map explicitPart :=
      splitOnChar_joinSep '&' _ (by simp) hpartsamp
    show parseQuery ('?' :: joinSep (gs "&")
        (joinSep (gs ";") (ty :: vs) :: cs.map explicitPart)) =
      (expectedPositional ty vs ++ cs, none)
    rw [parseQuery_query, hsplit,
      parseQueryLoop_positional_step ty vs _ [] htyne htysemi hvs
        (fun v hv2 => (hv v hv2).1),
      parseQueryLoop_explicit_all cs false _ hcs,
      List.nil_append, posConditions_expected ty vs hfield]
  · intro hcsne
    have hmapne : cs.map explicitPart ≠ [] := by
      intro h0
      exact hcsne (List.map_eq_nil.mp h0)
    have hsplit : splitOnChar '&' (joinSep (gs "&") (cs.map explicitPart)) =
        cs.map explicitPart :=
      splitOnChar_joinSep '&' _ hmapne hmapamp
    show parseQuery ('?' :: joinSep (gs "&") (cs.map explicitPart)) = (cs, none)
    rw [parseQuery_query, hsplit, parseQueryLoop_explicit_all cs true [] hcs,
      List.nil_append]

/-- C8 counterexample to the frozen claim: a positional conjunct in the
SECOND position of the conjunction is not expanded into equality
conditions; `parseQuery` reports it as an invalid condition. -/
theorem parseQuery_positional_second_rejected :
    parseQuery (gs "?Name=A&STR;B") =
      ([⟨gs "Name", gs "=", gs "A"⟩],
        some (gs "invalid condition format: STR;B")) := by decide

theorem parseQuery_conjunction_forms_witness :
    parseQuery (gs "?" ++ joinSep (gs "&")
        (joinSep (gs ";") (gs "STR" :: [gs "M1"]) ::
          ([⟨gs "Bitrate", gs ">=", gs "9600"⟩] : List Condition).map
            explicitPart)) =
      (expectedPositional (gs "STR") [gs "M1"] ++
        [⟨gs "Bitrate", gs ">=", gs "9600"⟩], none) ∧
    parseQuery (gs "?" ++ joinSep (gs "&")
        (([⟨gs "Bitrate", gs ">=", gs "9600"⟩] : List Condition).map
          explicitPart)) =
      ([⟨gs "Bitrate", gs ">=", gs "9600"⟩], none) := by
  have h := parseQuery_conjunction_forms (gs "STR") [gs "M1"]
    [⟨gs "Bitrate", gs ">=", gs "9600"⟩] (Or.inl rfl) (by decide) (by decide)
    (by decide) (by decide)
  exact ⟨h.1, h.2 (by decide)⟩
